import Mathlib

/-!
Verification development for the candidate-generation, LLM-classification and
output-validation engine of an AI financial-insights backend.

The Python sources embedded here are
`services/ai_agent/transaction_analyzer.py`,
`services/ai_agent/subscription_classifier.py`,
`services/db/postgres_connector.py` and the date checks of
`api/v1/insights.py`.  Conventions of the embedding:

* Python `Decimal`/`float` numbers are modelled as `Rat`.  The code computes
  severity scores in binary floating point; all concrete inputs used below are
  chosen so that the float results coincide with exact rational arithmetic.
* Python strings are manipulated through their character lists; lengths count
  code points, as Python `len` does.
* Arbitrary JSON-like values handed back by the LLM are modelled by `JVal`.
  A Python statement that can raise becomes an `Except String` value.
* Database side effects are modelled by explicit state passing: the bulk
  subscription updates and the insight store appear as lists threaded through
  the functions that mutate them.
-/

/-! ## Python string helpers -/

/-- Whitespace characters recognised by Python `str.strip` / the regex `\s`
(ASCII subset; the inputs below contain no exotic whitespace). -/
def isPySpace (c : Char) : Bool :=
  c = ' ' ∨ c = '\t' ∨ c = '\n' ∨ c = '\r' ∨ c = '\x0b' ∨ c = '\x0c'

/-- Python `str.strip()`. -/
def pyStrip (s : String) : String :=
  (((s.toList.dropWhile isPySpace).reverse.dropWhile isPySpace).reverse).asString

/-- Python `str.rstrip()`. -/
def pyRStrip (s : String) : String :=
  ((s.toList.reverse.dropWhile isPySpace).reverse).asString

/-- Python slicing `s[:n]` (counting code points). -/
def strTake (n : Nat) (s : String) : String :=
  (s.toList.take n).asString

/-- Python `len` on a string (code points). -/
def pyLen (s : String) : Nat :=
  s.toList.length

/-- ASCII lowercase of one character (Python `str.lower` restricted to ASCII;
no input below contains cased non-ASCII letters). -/
def lowerChar (c : Char) : Char :=
  if 'A' ≤ c ∧ c ≤ 'Z' then Char.ofNat (c.toNat + 32) else c

/-- Python `s.lower()`. -/
def pyLower (s : String) : String :=
  (s.toList.map lowerChar).asString

/-- Python `x or y` for strings: the left operand unless it is falsy (empty). -/
def orEmpty (a b : String) : String :=
  if a = "" then b else a

/-- `'$' in s`. -/
def hasDollar (s : String) : Bool :=
  s.toList.contains '$'

/-! ## Stable sorting (Python `sorted` / `list.sort`)

Python sorting is stable.  `pySorted le` is a stable insertion sort where
`le x a = true` means that an element `x` already placed may stay in front of
the newly inserted `a`; instantiating `le` with `key x ≤ key a` gives
Python `sorted(key=...)`, and with `key a ≤ key x` gives `reverse=True`. -/

def insOrd (le : α → α → Bool) (a : α) : List α → List α
  | [] => [a]
  | x :: xs => if le x a then x :: insOrd le a xs else a :: x :: xs

def pySorted (le : α → α → Bool) (l : List α) : List α :=
  l.foldl (fun acc a => insOrd le a acc) []

theorem mem_insOrd (le : α → α → Bool) (a : α) (l : List α) (x : α) :
    x ∈ insOrd le a l ↔ x = a ∨ x ∈ l := by
  induction l with
  | nil => simp [insOrd]
  | cons b t ih =>
      by_cases h : le b a = true
      · simp only [insOrd, if_pos h, List.mem_cons, ih]
        try tauto
      · simp only [insOrd, if_neg h, List.mem_cons]
        try tauto

theorem mem_pySorted_aux (le : α → α → Bool) (l acc : List α) (x : α) :
    x ∈ l.foldl (fun acc a => insOrd le a acc) acc ↔ x ∈ acc ∨ x ∈ l := by
  induction l generalizing acc with
  | nil => simp
  | cons b t ih =>
      simp only [List.foldl_cons, ih, mem_insOrd, List.mem_cons]
      tauto

theorem mem_pySorted (le : α → α → Bool) (l : List α) (x : α) :
    x ∈ pySorted le l ↔ x ∈ l := by
  simp [pySorted, mem_pySorted_aux]

theorem insOrd_append (le : α → α → Bool) (a : α) (l : List α)
    (h : ∀ x ∈ l, le x a = true) : insOrd le a l = l ++ [a] := by
  induction l with
  | nil => rfl
  | cons b t ih =>
      have hb : le b a = true := h b (by simp)
      simp only [insOrd, if_pos hb, List.cons_append, List.cons.injEq, true_and]
      exact ih fun x hx => h x (by simp [hx])

theorem pySorted_aux_of_pairwise (le : α → α → Bool) (l : List α) :
    ∀ acc : List α, (acc ++ l).Pairwise (fun a b => le a b = true) →
      l.foldl (fun acc a => insOrd le a acc) acc = acc ++ l := by
  induction l with
  | nil => intro acc _; simp
  | cons b t ih =>
      intro acc hp
      have hacc : ∀ x ∈ acc, le x b = true := by
        intro x hx
        have := (List.pairwise_append.mp hp).2.2 x hx b (by simp)
        exact this
      have h1 : insOrd le b acc = acc ++ [b] := insOrd_append le b acc hacc
      simp only [List.foldl_cons, h1]
      have := ih (acc ++ [b]) (by simpa using hp)
      simpa using this

theorem pySorted_of_pairwise (le : α → α → Bool) (l : List α)
    (h : l.Pairwise (fun a b => le a b = true)) : pySorted le l = l := by
  have := pySorted_aux_of_pairwise le l [] (by simpa using h)
  simpa [pySorted] using this

/-! ## Python `dict`-flavoured list helpers -/

/-- First-occurrence deduplication: the iteration order of a Python
`dict`/`defaultdict` keyed by these values. -/
def pyDedup [DecidableEq α] (l : List α) : List α :=
  l.foldl (fun acc x => if x ∈ acc then acc else acc ++ [x]) []

/-! ## Python `round` (banker's rounding) -/

/-- Python `round(x)`: round half to even. -/
def pyRound (x : Rat) : Int :=
  let f := x.floor
  let r := x - f
  if r < 1/2 then f
  else if 1/2 < r then f + 1
  else if f % 2 = 0 then f else f + 1

/-- Python `round(x, 4)` on the exact rational value. -/
def round4 (x : Rat) : Rat :=
  (pyRound (x * 10000) : Rat) / 10000

/-! ## JSON-like values returned by the LLM -/

/-- A Python value decoded from LLM JSON output (`json.loads` result, or any
value the validator may be handed). -/
inductive JVal where
  | null : JVal
  | bool (b : Bool) : JVal
  | num (q : Rat) : JVal
  | str (s : String) : JVal
  | arr (l : List JVal) : JVal
  | obj (l : List (String × JVal)) : JVal

/-- Python truthiness of a `JVal`. -/
def truthy : JVal → Bool
  | .null => false
  | .bool b => b
  | .num q => q ≠ 0
  | .str s => s ≠ ""
  | .arr l => ¬ l.isEmpty
  | .obj l => ¬ l.isEmpty

mutual

/-- Python `str(x)` on a decoded JSON value.  Scalar cases are exact; the
rendering of containers and non-integral numbers is approximate (no property
below depends on those strings beyond their being produced). -/
def jStr : JVal → String
  | .null => "None"
  | .bool true => "True"
  | .bool false => "False"
  | .num q => if q.den = 1 then toString q.num else toString q
  | .str s => s
  | .arr l => "[" ++ jStrList l ++ "]"
  | .obj l => "[obj " ++ jStrObj l ++ "]"

def jStrList : List JVal → String
  | [] => ""
  | [x] => jStr x
  | x :: xs => jStr x ++ ", " ++ jStrList xs

def jStrObj : List (String × JVal) → String
  | [] => ""
  | (k, v) :: xs => k ++ ": " ++ jStr v ++ "; " ++ jStrObj xs

end

/-- `d.get(k)` on a decoded JSON object (keys are unique after `json.loads`). -/
def jObjGet (fields : List (String × JVal)) (k : String) : Option JVal :=
  (fields.find? (fun p => p.1 = k)).map (fun p => p.2)

/-- `d.get(k, default)`. -/
def jObjGetD (fields : List (String × JVal)) (k : String) (d : JVal) : JVal :=
  (jObjGet fields k).getD d

/-- `ensure_list` from `_validate_and_fix_output`: the value if it is a list,
else `[]`. -/
def ensure_list : JVal → List JVal
  | .arr l => l
  | _ => []

/-! ## Candidates (deterministic findings handed to the LLM)

A candidate dict produced by `_analyze_transactions`.  The validator reads its
`key`, `metrics.metric_label`, `metrics.metric_value`, `severity_score` and
`supporting_transaction_ids` entries; the merchant-frequency generator below
also fills the numeric metrics it derives them from. -/
structure Candidate where
  candidate_type : String
  key : String
  metric_label : String
  metric_value : String
  count : Nat
  total : Rat
  share_of_expenses : Rat
  severity_score : Rat
  supporting_transaction_ids : List String
deriving Repr

/-- `candidate_by_key.get(key)` (Python dict lookup). -/
def lookupCand (d : List (String × Candidate)) (k : String) : Option Candidate :=
  (d.find? (fun p => p.1 = k)).map (fun p => p.2)

/-- One step of the dict comprehension
`{str(c.get("key")): c for c in top_candidates if c.get("key")}`:
inserting under an existing key overwrites its value, a fresh key is appended
(Python dicts keep first-insertion position, last value). -/
def dictInsertCand (d : List (String × Candidate)) (c : Candidate) :
    List (String × Candidate) :=
  if (d.find? (fun p => p.1 = c.key)).isSome then
    d.map (fun p => if p.1 = c.key then (c.key, c) else p)
  else d ++ [(c.key, c)]

/-- `candidate_by_key` as built in `_finalize_insights` (line 509). -/
def candidate_by_key (top : List Candidate) : List (String × Candidate) :=
  top.foldl (fun d c => if c.key = "" then d else dictInsertCand d c) []

/-! ## The output validator `_validate_and_fix_output` -/

/-- Replacement pass of `re.sub(r"\$\s*", file_currency + " ", s)`: each `$`
together with the following whitespace run becomes the currency code plus one
space.  `skip` records that the scanner is inside the whitespace run of a
match. -/
def subDollarGo (fcL : List Char) : Bool → List Char → List Char
  | _, [] => []
  | skip, c :: rest =>
    if c = '$' then fcL ++ ' ' :: subDollarGo fcL true rest
    else if skip ∧ isPySpace c then subDollarGo fcL true rest
    else c :: subDollarGo fcL false rest

/-- `scrub_dollar` (inner helper of `_validate_and_fix_output`) restricted to
string input; the dynamic `str()` coercion is `scrub_any` below. -/
def scrub_dollar (file_currency : String) (s : String) : String :=
  if ¬ hasDollar s then s
  else if file_currency ≠ "" ∧ file_currency ≠ "MULTI" then
    (subDollarGo file_currency.toList false s.toList).asString
  else
    (s.toList.filter (fun c => c ≠ '$')).asString

/-- The `str()` coercion performed by `scrub_dollar` on non-string input:
`"" if s is None else str(s)`. -/
def pyStrField : JVal → String
  | .null => ""
  | .str s => s
  | v => jStr v

/-- `clamp_str` on an already-coerced string (`s2` of the source inlined). -/
def clamp_str (file_currency : String) (s : String) (max_len : Nat) : String :=
  if pyLen (pyStrip (scrub_dollar file_currency s)) ≤ max_len then
    pyStrip (scrub_dollar file_currency s)
  else pyRStrip (strTake (max_len - 1) (pyStrip (scrub_dollar file_currency s))) ++ "…"

/-- `clamp_str` applied to an arbitrary field value. -/
def clamp_any (file_currency : String) (v : JVal) (max_len : Nat) : String :=
  clamp_str file_currency (pyStrField v) max_len

/-- The severity word table of `_normalize_severity`. -/
def sevMap (s : String) : Option String :=
  if s = "low" then some ("info")
  else if s = "medium" then some ("warning")
  else if s = "high" then some ("critical")
  else if s = "info" then some ("info")
  else if s = "warning" then some ("warning")
  else if s = "critical" then some ("critical")
  else none

/-- `_normalize_severity` on a string argument. -/
def normalize_severity_str (s : String) : Option String :=
  if s = "" then none else sevMap (pyLower s)

/-- `_normalize_severity` on a dynamic value: falsy values yield `None`, a
truthy non-string raises `AttributeError` at `value.lower()`. -/
def normalize_severity (v : JVal) : Except String (Option String) :=
  if ¬ truthy v then .ok none
  else match v with
    | .str s => .ok (sevMap (pyLower s))
    | _ => .error ("AttributeError: lower")

/-- `severity_rank` (inner helper): canonical severities rank 0/1/2, anything
else 3. -/
def severity_rank (sev : String) : Nat :=
  match normalize_severity_str sev with
  | some s =>
      if s = "critical" then 0
      else if s = "warning" then 1
      else if s = "info" then 2
      else 3
  | none => 3

/-- A repaired spending-insight item. -/
structure FixedPattern where
  title : String
  detail : String
  severity : String
  metric_label : String
  metric_value : String
  supporting_transaction_ids : List String
  source_candidate_key : String
deriving DecidableEq, Repr

/-- A repaired alert item. -/
structure FixedAlert where
  title : String
  detail : String
  severity : String
  metric_label : String
  metric_value : String
  supporting_transaction_ids : List String
deriving DecidableEq, Repr

/-- A repaired recommendation item. -/
structure FixedRec where
  title : String
  detail : String
  linked_to_title : String
deriving DecidableEq, Repr

/-- The validator's return value. -/
structure FixedOutput where
  spending_insights : List FixedPattern
  alerts : List FixedAlert
  recommendations : List FixedRec
deriving DecidableEq, Repr

/-- Key extraction and candidate lookup for one spending item (lines 597-602):
`None` when the item's `source_candidate_key` is missing, not a string, empty,
or matches no candidate — such items are dropped, never repaired. -/
def spending_key_candidate (cbk : List (String × Candidate))
    (fields : List (String × JVal)) : Option (String × Candidate) :=
  match jObjGet fields "source_candidate_key" with
  | some (.str key) =>
      if key = "" then none
      else (lookupCand cbk key).map (fun c => (key, c))
  | _ => none

/-- Supporting-id reconciliation for one spending item (lines 605-609): a
missing / non-list / empty id field is backfilled from the candidate's own
evidence, then the Python comprehension `[str(x) for x in ids if x]` and the
`[:3]` cut are applied. -/
def spending_ids (cand : Candidate) (fields : List (String × JVal)) :
    List String :=
  let ids : List String :=
    match jObjGet fields "supporting_transaction_ids" with
    | some (.arr l) =>
        if l.isEmpty then cand.supporting_transaction_ids.filter (fun s => s ≠ "")
        else ((l.filter truthy).map jStr).filter (fun s => s ≠ "")
    | _ => cand.supporting_transaction_ids.filter (fun s => s ≠ "")
  ids.take 3

/-- `metric = item.get("metric") if isinstance(item.get("metric"), dict) else
{}` (line 614). -/
def metric_fields (fields : List (String × JVal)) : List (String × JVal) :=
  match jObjGet fields "metric" with
  | some (.obj m) => m
  | _ => []

/-- Metric label/value repair for one spending item (lines 614-621): clamp the
item's own metric fields, falling back to the candidate's precomputed label and
value when empty. -/
def spending_metric (fc : String) (cand : Candidate)
    (fields : List (String × JVal)) : String × String :=
  ( if clamp_any fc (jObjGetD (metric_fields fields) "label" (.str (""))) 64 = ""
    then clamp_str fc cand.metric_label 64
    else clamp_any fc (jObjGetD (metric_fields fields) "label" (.str (""))) 64,
    if clamp_any fc (jObjGetD (metric_fields fields) "value" (.str (""))) 64 = ""
    then clamp_str fc cand.metric_value 64
    else clamp_any fc (jObjGetD (metric_fields fields) "value" (.str (""))) 64 )

/-- The repaired record appended for a surviving spending item (lines
623-630). -/
def mk_fixed_pattern (fc : String) (fields : List (String × JVal)) (key : String)
    (cand : Candidate) (sevOpt : Option String) : FixedPattern :=
  { title := orEmpty (clamp_any fc (jObjGetD fields "title" (.str (""))) 52)
      (orEmpty (clamp_str fc (spending_metric fc cand fields).1 52) ("Spending insight")),
    detail := orEmpty (clamp_any fc (jObjGetD fields "detail" (.str (""))) 140)
      (orEmpty (clamp_str fc (spending_metric fc cand fields).2 140) ("See statement details.")),
    severity := sevOpt.getD ("warning"),
    metric_label := (spending_metric fc cand fields).1,
    metric_value := (spending_metric fc cand fields).2,
    supporting_transaction_ids := spending_ids cand fields,
    source_candidate_key := key }

/-- Processing of one purported spending-insight item (the loop body of lines
594-630).  `.ok none` is Python `continue`; the `Except` error is the
`AttributeError` a truthy non-string severity raises. -/
def fix_spending_item (cbk : List (String × Candidate)) (fc : String)
    (item : JVal) : Except String (Option FixedPattern) :=
  match item with
  | .obj fields =>
      match spending_key_candidate cbk fields with
      | none => .ok none
      | some (key, cand) =>
          if (spending_ids cand fields).isEmpty then .ok none
          else
            match normalize_severity (jObjGetD fields "severity" .null) with
            | .error e => .error e
            | .ok sevOpt => .ok (some (mk_fixed_pattern fc fields key cand sevOpt))
  | _ => .ok none

/-- The full spending loop: `continue`-skipped items vanish, the first raised
exception aborts. -/
def fix_spending_list (cbk : List (String × Candidate)) (fc : String) :
    List JVal → Except String (List FixedPattern)
  | [] => .ok []
  | item :: rest =>
      match fix_spending_item cbk fc item with
      | .error e => .error e
      | .ok none => fix_spending_list cbk fc rest
      | .ok (some p) =>
          match fix_spending_list cbk fc rest with
          | .error e => .error e
          | .ok ps => .ok (p :: ps)

/-- Severity score looked up for the sort key (line 636):
`candidate_by_key.get(key, {}).get("severity_score", 0)`. -/
def score_of (cbk : List (String × Candidate)) (k : String) : Rat :=
  ((lookupCand cbk k).map (fun c => c.severity_score)).getD 0

/-- The two-key sort order of line 633-638: ascending severity rank, then
descending candidate severity score.  `spend_le x a = true` iff `x` may stay
in front of `a` under Python's stable sort. -/
def spend_le (cbk : List (String × Candidate)) (x a : FixedPattern) : Bool :=
  severity_rank x.severity < severity_rank a.severity ∨
    (severity_rank x.severity = severity_rank a.severity ∧
      score_of cbk a.source_candidate_key ≤ score_of cbk x.source_candidate_key)

/-- The metric dict consulted for an alert item (line 645; the default differs
from the spending one but yields the same lookups). -/
def alert_metric_fields (fields : List (String × JVal)) : List (String × JVal) :=
  match jObjGet fields "metric" with
  | some (.obj m) => m
  | _ => [("label", .str ("")), ("value", .str (""))]

/-- The repaired record appended for an alert item (lines 646-652). -/
def mk_fixed_alert (fc : String) (fields : List (String × JVal))
    (sevOpt : Option String) : FixedAlert :=
  { title := orEmpty (clamp_any fc (jObjGetD fields "title" (.str (""))) 52) ("Alert"),
    detail := clamp_any fc
      (jObjGetD fields "detail" (jObjGetD fields "description" (.str ("")))) 140,
    severity := sevOpt.getD ("warning"),
    metric_label := clamp_any fc (jObjGetD (alert_metric_fields fields) "label" (.str (""))) 64,
    metric_value := clamp_any fc (jObjGetD (alert_metric_fields fields) "value" (.str (""))) 64,
    supporting_transaction_ids :=
      (((ensure_list (jObjGetD fields "supporting_transaction_ids" .null)).filter
        truthy).map jStr).filter (fun s => s ≠ "") |>.take 3 }

/-- Processing of one alert item (lines 642-652). -/
def fix_alert_item (fc : String) (item : JVal) :
    Except String (Option FixedAlert) :=
  match item with
  | .obj fields =>
      match normalize_severity (jObjGetD fields "severity" .null) with
      | .error e => .error e
      | .ok sevOpt => .ok (some (mk_fixed_alert fc fields sevOpt))
  | _ => .ok none

/-- The full alert loop. -/
def fix_alert_list (fc : String) : List JVal → Except String (List FixedAlert)
  | [] => .ok []
  | item :: rest =>
      match fix_alert_item fc item with
      | .error e => .error e
      | .ok none => fix_alert_list fc rest
      | .ok (some a) =>
          match fix_alert_list fc rest with
          | .error e => .error e
          | .ok as_ => .ok (a :: as_)

/-- Processing of one recommendation item (lines 657-667): kept only when its
`linked_to_title` is a string equal to a title of the already-finalised
patterns or alerts.  `valid_titles` is a Python set, so the membership test
`linked not in valid_titles` (line 661) raises `TypeError` when the item
carries an unhashable — list or dict — `linked_to_title`; hashable non-string
values (absent key, `None`, bools, numbers) compare unequal to every title
and the item is skipped. -/
def fix_rec_item (fc : String) (valid_titles : List String) (item : JVal) :
    Except String (Option FixedRec) :=
  match item with
  | .obj fields =>
      match jObjGet fields "linked_to_title" with
      | some (.str linked) =>
          if linked ∈ valid_titles then
            .ok (some {
              title := orEmpty (clamp_any fc (jObjGetD fields "title" (.str (""))) 52)
                ("Recommendation"),
              detail := clamp_any fc
                (jObjGetD fields "detail" (jObjGetD fields "description" (.str ("")))) 140,
              linked_to_title := linked })
          else .ok none
      | some (.arr _) => .error ("TypeError: unhashable type: list")
      | some (.obj _) => .error ("TypeError: unhashable type: dict")
      | _ => .ok none
  | _ => .ok none

/-- The full recommendation loop: `continue`-skipped items vanish, the first
raised `TypeError` aborts. -/
def fix_rec_list (fc : String) (valid_titles : List String) :
    List JVal → Except String (List FixedRec)
  | [] => .ok []
  | item :: rest =>
      match fix_rec_item fc valid_titles item with
      | .error e => .error e
      | .ok none => fix_rec_list fc valid_titles rest
      | .ok (some r) =>
          match fix_rec_list fc valid_titles rest with
          | .error e => .error e
          | .ok rs => .ok (r :: rs)

/-- `output = llm_output if isinstance(llm_output, dict) else {}` (line 588). -/
def obj_fields : JVal → List (String × JVal)
  | .obj f => f
  | _ => []

/-- `_validate_and_fix_output` (lines 549-674): deterministically enforce
structural constraints on arbitrary LLM output.  The result is `.error` exactly
when the Python function raises. -/
def validate_and_fix_output (llm_output : JVal)
    (cbk : List (String × Candidate)) (file_currency : String) :
    Except String FixedOutput :=
  let output : List (String × JVal) := obj_fields llm_output
  let spending := ensure_list (jObjGetD output "spending_insights" .null)
  let alerts := ensure_list (jObjGetD output "alerts" .null)
  let recs := ensure_list (jObjGetD output "recommendations" .null)
  match fix_spending_list cbk file_currency spending with
  | .error e => .error e
  | .ok fixed0 =>
      let fixed_spending := (pySorted (spend_le cbk) fixed0).take 3
      match fix_alert_list file_currency alerts with
      | .error e => .error e
      | .ok alerts0 =>
          let fixed_alerts := alerts0.take 2
          let valid_titles :=
            fixed_spending.map (fun p => p.title) ++ fixed_alerts.map (fun a => a.title)
          match fix_rec_list file_currency valid_titles recs with
          | .error e => .error e
          | .ok recs0 =>
              .ok {
                spending_insights := fixed_spending,
                alerts := fixed_alerts,
                recommendations := recs0.take 3 }

/-! ## The LLM-failure fallback of `_finalize_insights` -/

/-- One fallback spending item built in the `except` branch of
`_finalize_insights` (lines 525-535).  The generator always fills the
`metric_label`/`metric_value` entries of a candidate's metrics dict, so the
`.get` defaults `"Metric"`/`""` of line 532 never fire. -/
def fallback_spending_item (c : Candidate) : JVal :=
  .obj [
    ("title", .str (strTake 52 (orEmpty c.metric_label ("Spending insight")))),
    ("detail", .str (strTake 140 (orEmpty c.metric_value ("See statement details.")))),
    ("severity", .str ("warning")),
    ("metric", .obj [("label", .str c.metric_label), ("value", .str c.metric_value)]),
    ("supporting_transaction_ids",
      .arr ((c.supporting_transaction_ids.take 3).map (fun s => .str s))),
    ("source_candidate_key", .str c.key)]

/-- The deterministic `result` built when the LLM call raises (line 536). -/
def llm_failure_result (top : List Candidate) : JVal :=
  .obj [
    ("spending_insights", .arr ((top.take 3).map fallback_spending_item)),
    ("alerts", .arr []),
    ("recommendations", .arr [])]

/-- `_finalize_insights` when the LLM call raises any exception: the hard
fallback result of the `except` branch, pushed through the validator with the
`candidate_by_key` map of the top-6 candidates (lines 482-542). -/
def finalize_on_llm_error (candidates : List Candidate) (fc : String) :
    Except String FixedOutput :=
  let top := candidates.take 6
  validate_and_fix_output (llm_failure_result top) (candidate_by_key top) fc

/-! ## The merchant-frequency candidate generator -/

/-- A transaction dict as fed to `_analyze_transactions` by `analyze`
(string fields use `""` for an absent/`None` value, matching Python
truthiness). -/
structure ATx where
  id : String
  description : String
  merchant_name : String
  amount : Rat
  transaction_type : String
  category : String
deriving DecidableEq, Repr

/-- `tx.get("merchant_name") or tx.get("description") or "Unknown"`. -/
def merchantOf (t : ATx) : String :=
  orEmpty t.merchant_name (orEmpty t.description ("Unknown"))

/-- The debit transactions (`tx_type != "credit"`). -/
def debitTxs (txs : List ATx) : List ATx :=
  txs.filter (fun t => t.transaction_type ≠ "credit")

/-- `total_expenses`: the sum of all debit amounts. -/
def total_expenses (txs : List ATx) : Rat :=
  (debitTxs txs).foldl (fun s t => s + t.amount) 0

/-- One entry of `merchant_totals`: a merchant name with its debit
transactions in order of appearance. -/
structure MGroup where
  name : String
  txs : List ATx
deriving DecidableEq, Repr

def MGroup.count (g : MGroup) : Nat := g.txs.length

def MGroup.total (g : MGroup) : Rat :=
  g.txs.foldl (fun s t => s + t.amount) 0

/-- `merchant_totals` as a list in `defaultdict` insertion order. -/
def merchant_groups (txs : List ATx) : List MGroup :=
  (pyDedup ((debitTxs txs).map merchantOf)).map
    (fun m => { name := m, txs := (debitTxs txs).filter (fun t => merchantOf t = m) })

/-- `sorted(merchant_totals.items(), key=lambda kv: (kv[1]["count"],
kv[1]["total"]), reverse=True)` — stable descending sort on (count, total). -/
def merchant_sorted (txs : List ATx) : List MGroup :=
  pySorted
    (fun x a => decide (a.count < x.count ∨ (a.count = x.count ∧ a.total ≤ x.total)))
    (merchant_groups txs)

/-- `_normalize_key`: lowercase, collapse non-alphanumeric runs to single
underscores, trim underscores, `"unknown"` for empty results. -/
def isLowerAlnum (c : Char) : Bool :=
  ('a' ≤ c ∧ c ≤ 'z') ∨ ('0' ≤ c ∧ c ≤ '9')

/-- Collapse runs of underscores (the combined effect of the two `re.sub`
calls of `_normalize_key`); the flag records whether the previous output
character was an underscore. -/
def collapseUnd : Bool → List Char → List Char
  | _, [] => []
  | prevU, c :: rest =>
      if c = '_' then
        if prevU then collapseUnd true rest else '_' :: collapseUnd true rest
      else c :: collapseUnd false rest

def normalize_key (value : String) : String :=
  let s := pyLower (pyStrip value)
  if s = "" then "unknown"
  else
    let mapped := s.toList.map (fun c => if isLowerAlnum c then c else '_')
    let collapsed := collapseUnd false mapped
    let trimmed :=
      ((collapsed.dropWhile (fun c => c = '_')).reverse.dropWhile
        (fun c => c = '_')).reverse
    if trimmed.isEmpty then "unknown" else trimmed.asString

/-- Modelled from the spec: `format_money` lives in `backend/utils/formatting`,
which is not among the provided sources; the spec only requires money-valued
metric strings to carry the detected currency code and never a dollar sign. -/
def format_money (currency : String) (amount : Rat) : String :=
  currency ++ " " ++ toString amount

/-- The `metric_value` string of a merchant-frequency candidate (lines
333-337); its `{data['total']:,.2f}` number formatting is approximated through
`format_money` above and is not relied on by any property below. -/
def mf_metric_value (fc : String) (g : MGroup) : String :=
  if fc ≠ "MULTI" then
    toString g.count ++ " txs totaling " ++ format_money fc g.total
  else
    toString g.count ++ " txs totaling " ++ toString g.total ++ " (MULTI)"

/-- The candidate emitted for one merchant group (loop body of lines
322-352). -/
def mk_merchant_candidate (fc : String) (totalExp : Rat) (g : MGroup) :
    Candidate :=
  let share : Rat := if 0 < totalExp then g.total / totalExp else 0
  let txs_sorted := pySorted (fun x a => decide (a.amount ≤ x.amount)) g.txs
  { candidate_type := "merchant_frequency",
    key := "merchant_frequency:" ++ normalize_key g.name,
    metric_label := g.name ++ " spend frequency",
    metric_value := mf_metric_value fc g,
    count := g.count,
    total := g.total,
    share_of_expenses := share,
    severity_score := round4 (min 1 (((g.count : Rat) / 12) * 0.6 + share * 0.4)),
    supporting_transaction_ids :=
      (txs_sorted.take 3).filterMap (fun t => if t.id = "" then none else some t.id) }

/-- The merchant-frequency section of `_analyze_transactions` (lines 317-352):
of the top 10 merchants by (count, total), those with at least 4 transactions
yield a candidate. -/
def merchant_frequency_candidates (fc : String) (txs : List ATx) :
    List Candidate :=
  ((merchant_sorted txs).take 10).filterMap
    (fun g =>
      if g.count < 4 then none
      else some (mk_merchant_candidate fc (total_expenses txs) g))

/-! ## Dates (Python `datetime.date`) -/

/-- A calendar date; comparisons and differences go through the proleptic
Gregorian ordinal, exactly Python's `date.toordinal` (ordering of valid dates
coincides with lexicographic (year, month, day) ordering). -/
structure PyDate where
  year : Nat
  month : Nat
  day : Nat
deriving DecidableEq, Repr

def isLeapYear (y : Nat) : Bool :=
  y % 4 = 0 ∧ (y % 100 ≠ 0 ∨ y % 400 = 0)

/-- Cumulative day counts before each month in a non-leap year. -/
def daysBeforeMonth (m : Nat) : Nat :=
  [0, 31, 59, 90, 120, 151, 181, 212, 243, 273, 304, 334].getD (m - 1) 0

/-- `date.toordinal()`: day 1 is 0001-01-01. -/
def toOrdinal (d : PyDate) : Nat :=
  365 * (d.year - 1) + (d.year - 1) / 4 - (d.year - 1) / 100 + (d.year - 1) / 400
    + daysBeforeMonth d.month
    + (if 2 < d.month ∧ isLeapYear d.year then 1 else 0)
    + d.day

/-- `a < b` on dates. -/
def dateLt (a b : PyDate) : Bool :=
  toOrdinal a < toOrdinal b

/-- `(e - s).days`. -/
def daysDiff (s e : PyDate) : Int :=
  (toOrdinal e : Int) - (toOrdinal s : Int)

/-! ## The subscription classifier -/

/-- A candidate transaction as seen by the classifier's control flow (only the
id is read by the batching, marking and reconciliation code; the remaining
fields feed the abstracted LLM payload). -/
structure STx where
  id : String
deriving DecidableEq, Repr

/-- A validated classification decision (`SubscriptionDecision`). -/
structure SubscriptionDecision where
  transaction_id : String
  subscription_status : String
  is_subscription : Bool
  confidence : Rat
  merchant_key : Option String
  subscription_name : Option String
  reason_codes : List String
deriving DecidableEq, Repr

/-- Pydantic construction of a `SubscriptionDecision`: the `ge=0`/`le=1` bound
on `confidence`, the allowed-status validator, and the
`validate_is_subscription_alignment` cross-field validator (lines 26-53).
A violated constraint rejects the decision; no field is coerced. -/
def mk_subscription_decision (tid : String) (status : String) (is_sub : Bool)
    (conf : Rat) (mkey : Option String) (sname : Option String)
    (rcs : List String) : Except String SubscriptionDecision :=
  if ¬ (status = "predicted" ∨ status = "rejected" ∨ status = "needs_review") then
    .error ("subscription_status must be one of predicted, rejected, needs_review")
  else if status = "predicted" ∧ ¬ is_sub then
    .error ("is_subscription must be True when subscription_status is predicted")
  else if status = "rejected" ∧ is_sub then
    .error ("is_subscription must be False when subscription_status is rejected")
  else if ¬ (0 ≤ conf ∧ conf ≤ 1) then
    .error ("confidence must be between 0 and 1")
  else
    .ok {
      transaction_id := tid, subscription_status := status,
      is_subscription := is_sub, confidence := conf,
      merchant_key := mkey, subscription_name := sname, reason_codes := rcs }

/-- The decision synthesized for a transaction the model omitted (lines
376-384). -/
def missing_decision (tid : String) : SubscriptionDecision :=
  { transaction_id := tid, subscription_status := "needs_review",
    is_subscription := false, confidence := 0, merchant_key := none,
    subscription_name := none, reason_codes := ["missing_from_response"] }

/-- The reconciliation part of `_parse_llm_response` (lines 361-386), after
JSON decoding and pydantic validation: decisions for unknown ids are
discarded, omitted input ids are synthesized as `needs_review`.  (Python
iterates the `missing_ids` set in unspecified order; first-occurrence order is
used here, and no property below depends on it.) -/
def parse_llm_decisions (decisions : List SubscriptionDecision)
    (input_txs : List STx) : List SubscriptionDecision :=
  let valid_ids := input_txs.map (fun t => t.id)
  let valid_decisions := decisions.filter (fun d => d.transaction_id ∈ valid_ids)
  let returned_ids := valid_decisions.map (fun d => d.transaction_id)
  let missing_ids := (pyDedup valid_ids).filter (fun i => i ∉ returned_ids)
  valid_decisions ++ missing_ids.map missing_decision

/-- One row of `bulk_update_subscription_classification`. -/
structure SubUpdate where
  transaction_id : String
  is_subscription : Bool
  subscription_status : String
  subscription_confidence : Rat
  subscription_merchant_key : Option String
  subscription_name : Option String
  subscription_reason_codes : List String
deriving DecidableEq, Repr

/-- One entry of `summary.failed_batches` (lines 139-144). -/
structure FailedBatch where
  batch_start : Nat
  batch_end : Nat
  error : String
  transaction_ids : List String
deriving DecidableEq, Repr

/-- `ClassificationSummary`. -/
structure ClassificationSummary where
  total_processed : Nat := 0
  predicted_count : Nat := 0
  rejected_count : Nat := 0
  needs_review_count : Nat := 0
  failed_batches : List FailedBatch := []
  start_date : PyDate
  end_date : PyDate
deriving DecidableEq, Repr

/-- The run state: the summary being built plus the bulk subscription updates
sent to the database (side effects made explicit). -/
structure RunState where
  summary : ClassificationSummary
  db_updates : List SubUpdate
deriving DecidableEq, Repr

/-- One iteration of the `_apply_decisions` loop (lines 399-419): record the
update and bump the status counters. -/
def apply_one_decision (st : RunState) (d : SubscriptionDecision) : RunState :=
  let upd : SubUpdate := {
    transaction_id := d.transaction_id, is_subscription := d.is_subscription,
    subscription_status := d.subscription_status,
    subscription_confidence := d.confidence,
    subscription_merchant_key := d.merchant_key,
    subscription_name := d.subscription_name,
    subscription_reason_codes := d.reason_codes }
  let s := st.summary
  let s :=
    if d.subscription_status = "predicted" then
      { s with total_processed := s.total_processed + 1,
               predicted_count := s.predicted_count + 1 }
    else if d.subscription_status = "rejected" then
      { s with total_processed := s.total_processed + 1,
               rejected_count := s.rejected_count + 1 }
    else
      { s with total_processed := s.total_processed + 1,
               needs_review_count := s.needs_review_count + 1 }
  { summary := s, db_updates := st.db_updates ++ [upd] }

/-- `_apply_decisions`. -/
def apply_decisions (ds : List SubscriptionDecision) (st : RunState) : RunState :=
  ds.foldl apply_one_decision st

/-- The forced `needs_review` row written for each transaction of a failed
batch (lines 437-445). -/
def needs_review_update (tid : String) : SubUpdate :=
  { transaction_id := tid, is_subscription := false,
    subscription_status := "needs_review", subscription_confidence := 0,
    subscription_merchant_key := none, subscription_name := none,
    subscription_reason_codes := ["batch_failed"] }

/-- `_mark_batch_as_needs_review` (lines 424-450). -/
def mark_batch_as_needs_review (batch : List STx) (st : RunState) : RunState :=
  batch.foldl
    (fun st tx =>
      { summary := { st.summary with
          total_processed := st.summary.total_processed + 1,
          needs_review_count := st.summary.needs_review_count + 1 },
        db_updates := st.db_updates ++ [needs_review_update tx.id] })
    st

def BATCH_SIZE : Nat := 300

def MAX_RANGE_DAYS : Nat := 365

/-- One iteration of the batch loop of `classify_subscriptions_range` (lines
131-146); `f` abstracts `_classify_batch` (LLM call plus parsing), whose
raised exceptions appear as `.error`. -/
def classify_batch_step
    (f : List STx → Except String (List SubscriptionDecision))
    (candidates : List STx) (batch_start : Nat) (st : RunState) : RunState :=
  let batch_end := min (batch_start + BATCH_SIZE) candidates.length
  let batch := (candidates.drop batch_start).take BATCH_SIZE
  match f batch with
  | .ok decisions => apply_decisions decisions st
  | .error e =>
      let st1 : RunState := { st with summary := { st.summary with
          failed_batches := st.summary.failed_batches ++
            [{ batch_start := batch_start, batch_end := batch_end, error := e,
               transaction_ids := batch.map (fun t => t.id) }] } }
      mark_batch_as_needs_review batch st1

/-- `range(0, len(candidates), BATCH_SIZE)`. -/
def batch_starts (n : Nat) : List Nat :=
  (List.range ((n + BATCH_SIZE - 1) / BATCH_SIZE)).map (fun i => i * BATCH_SIZE)

def run_batches (f : List STx → Except String (List SubscriptionDecision))
    (candidates : List STx) (st : RunState) : RunState :=
  (batch_starts candidates.length).foldl
    (fun st bs => classify_batch_step f candidates bs st) st

/-- `_validate_date_range` (lines 150-165). -/
def validate_date_range (start_date end_date : PyDate) : Except String Unit :=
  if dateLt end_date start_date then
    .error ("end_date must be >= start_date")
  else if (MAX_RANGE_DAYS : Int) < daysDiff start_date end_date then
    .error ("Date range cannot exceed 365 days")
  else .ok ()

/-- The initial summary/state of a run. -/
def init_run (s e : PyDate) : RunState :=
  { summary := { start_date := s, end_date := e }, db_updates := [] }

/-- `classify_subscriptions_range` (lines 91-148): validate the range, then
process the fetched candidates batch by batch.  The candidate list stands for
the result of `get_subscription_candidates`, which is only consulted after
validation passes. -/
def classify_subscriptions_range
    (f : List STx → Except String (List SubscriptionDecision))
    (start_date end_date : PyDate) (candidates : List STx) :
    Except String RunState :=
  match validate_date_range start_date end_date with
  | .error msg => .error msg
  | .ok _ =>
      if candidates.isEmpty then .ok (init_run start_date end_date)
      else .ok (run_batches f candidates (init_run start_date end_date))

/-! ## Date checks on the analyze path

`analyze` itself (transaction_analyzer.py lines 772-841) performs no date
validation; the only checks on its path are those of the HTTP endpoint
(`api/v1/insights.py` lines 186-196), embedded here. -/
def analyze_endpoint_checks (file_id : Option String)
    (start_date end_date : Option PyDate) : Except String Unit :=
  if (start_date.isNone ≠ end_date.isNone) then
    .error ("Both start_date and end_date must be provided together, or neither")
  else if (match start_date, end_date with
           | some sd, some ed => dateLt ed sd
           | _, _ => false) then
    .error ("end_date must be >= start_date")
  else if file_id.isNone ∧ start_date.isNone ∧ end_date.isNone then
    .error ("Provide either file_id, or (start_date and end_date)")
  else .ok ()

/-! ## The insight store (`delete_user_ai_insights` and `_save_insights`) -/

/-- A persisted financial insight; `metadata_source` is the `source` entry of
its `insight_metadata` blob. -/
structure FinancialInsight where
  user_id : Nat
  file_id : Option String
  insight_type : String
  title : String
  description : String
  metadata_source : String
deriving DecidableEq, Repr

/-- The row filter of `delete_user_ai_insights` (postgres_connector.py lines
736-744): the user's insights, narrowed to one file when a file id is given. -/
def insight_scope_matches (user_id : Nat) (file_id : Option String)
    (i : FinancialInsight) : Bool :=
  decide (i.user_id = user_id) &&
    (match file_id with
     | none => true
     | some f => decide (i.file_id = some f))

/-- `delete_user_ai_insights` (lines 718-752): of the scoped rows, delete
those whose metadata source is `"ai_analysis"`; returns the new store and the
deleted count. -/
def delete_user_ai_insights (user_id : Nat) (file_id : Option String)
    (store : List FinancialInsight) : List FinancialInsight × Nat :=
  let to_delete := store.filter
    (fun i => insight_scope_matches user_id file_id i ∧ i.metadata_source = "ai_analysis")
  (store.filter
    (fun i => ¬ (insight_scope_matches user_id file_id i ∧ i.metadata_source = "ai_analysis")),
   to_delete.length)

/-- The insight records built by `_save_insights` (transaction_analyzer.py
lines 684-755): every record carries metadata source `"ai_analysis"` and the
run's user and file scope. -/
def build_insights (user_id : Nat) (file_id : Option String)
    (out : FixedOutput) : List FinancialInsight :=
  out.spending_insights.map (fun p =>
    { user_id := user_id, file_id := file_id, insight_type := "pattern",
      title := p.title, description := p.detail, metadata_source := "ai_analysis" })
  ++ out.alerts.map (fun a =>
    { user_id := user_id, file_id := file_id, insight_type := "alert",
      title := a.title, description := a.detail, metadata_source := "ai_analysis" })
  ++ out.recommendations.map (fun r =>
    { user_id := user_id, file_id := file_id, insight_type := "recommendation",
      title := r.title, description := r.detail, metadata_source := "ai_analysis" })

/-- The delete-then-insert of `_save_insights` (lines 757-767): replace the
prior AI insights of the (user, scope) with the freshly generated ones. -/
def save_insights (user_id : Nat) (file_id : Option String)
    (new_insights : List FinancialInsight) (store : List FinancialInsight) :
    List FinancialInsight :=
  (delete_user_ai_insights user_id file_id store).1 ++ new_insights

/-! # Claims -/

/-! ## C5: cross-field validation of `SubscriptionDecision` -/

/-- C5 (counterexample): the pydantic validator accepts a decision with
`subscription_status = "needs_review"` and `is_subscription = true`, although
`is_subscription` is `true` while the status is not `"predicted"` — so the
claimed equivalence «`is_subscription` is true iff status is `"predicted"`» is
not what the validator enforces (only the two one-directional rules are). -/
theorem C5_counterexample :
    mk_subscription_decision ("t1") ("needs_review") true 0 none none []
      = .ok { transaction_id := "t1", subscription_status := "needs_review",
              is_subscription := true, confidence := 0, merchant_key := none,
              subscription_name := none, reason_codes := [] } ∧
    ("needs_review" : String) ≠ "predicted" := by
  exact ⟨rfl, by decide⟩

/-- C5 (amended): a decision is accepted iff its status is one of the three
allowed words, `is_subscription` is not `false` while the status is
`"predicted"`, not `true` while the status is `"rejected"` (a decision with
status `"needs_review"` is unconstrained), and the confidence lies in [0,1];
accepted decisions keep every field unchanged — the validator never coerces
`is_subscription` to match the status. -/
theorem C5_alignment (tid status : String) (is_sub : Bool)
    (conf : Rat) (mkey sname : Option String) (rcs : List String) :
    ((∃ d, mk_subscription_decision tid status is_sub conf mkey sname rcs = .ok d) ↔
      ((status = "predicted" ∨ status = "rejected" ∨ status = "needs_review") ∧
        ¬ (status = "predicted" ∧ is_sub = false) ∧
        ¬ (status = "rejected" ∧ is_sub = true) ∧
        0 ≤ conf ∧ conf ≤ 1)) ∧
    (∀ d, mk_subscription_decision tid status is_sub conf mkey sname rcs = .ok d →
      d.is_subscription = is_sub ∧ d.subscription_status = status ∧
        d.confidence = conf) := by
  constructor
  · unfold mk_subscription_decision
    split_ifs with h1 h2 h3 h4 <;> simp_all
  · intro d hd
    unfold mk_subscription_decision at hd
    split_ifs at hd with h1 h2 h3 h4
    cases hd
    exact ⟨rfl, rfl, rfl⟩

/-- C5 (witness): `C5_alignment` at a concrete accepted decision. -/
theorem C5_alignment_witness :
    ((∃ d, mk_subscription_decision ("t2") ("predicted") true 1 none none
        [("known_subscription")] = .ok d) ↔
      ((("predicted" : String) = "predicted" ∨ ("predicted" : String) = "rejected" ∨
          ("predicted" : String) = "needs_review") ∧
        ¬ (("predicted" : String) = "predicted" ∧ true = false) ∧
        ¬ (("predicted" : String) = "rejected" ∧ true = true) ∧
        (0 : Rat) ≤ 1 ∧ (1 : Rat) ≤ 1)) ∧
    (∀ d, mk_subscription_decision ("t2") ("predicted") true 1 none none
        [("known_subscription")] = .ok d →
      d.is_subscription = true ∧ d.subscription_status = "predicted" ∧
        d.confidence = 1) :=
  C5_alignment ("t2") ("predicted") true 1 none none [("known_subscription")]

/-! ## C9: date-range validation on the two pipelines -/

/-- C9 (counterexample): the analyze path does not enforce the 365-day cap.
The endpoint check behind `analyze` accepts start 2023-01-01, end 2024-02-01 —
a 396-day range that the classifier's validator rejects — so «both pipelines
validate … the range must not exceed 365 days» fails on the analyze side
(`analyze` itself, transaction_analyzer.py lines 772-841, checks nothing). -/
theorem C9_counterexample :
    analyze_endpoint_checks none (some { year := 2023, month := 1, day := 1 })
        (some { year := 2024, month := 2, day := 1 }) = .ok () ∧
    daysDiff { year := 2023, month := 1, day := 1 }
        { year := 2024, month := 2, day := 1 } = 396 ∧
    validate_date_range { year := 2023, month := 1, day := 1 }
        { year := 2024, month := 2, day := 1 }
      = .error ("Date range cannot exceed 365 days") := by
  refine ⟨rfl, by decide, rfl⟩

/-- C9 (amended): `classify_subscriptions_range` checks, before any
transactions are consulted, that the end date is not before the start date and
that the range does not exceed 365 days — in particular the start=2024-02-01 /
end=2023-01-01 request fails for every candidate list; the analyze path, by
contrast, only rejects (via its HTTP endpoint) a provided range whose end date
precedes its start date, with no 365-day cap. -/
theorem C9_range_validation :
    (∀ s e : PyDate, validate_date_range s e = .ok () ↔
      (¬ dateLt e s ∧ daysDiff s e ≤ 365)) ∧
    (∀ (f : List STx → Except String (List SubscriptionDecision))
        (candidates : List STx),
      classify_subscriptions_range f { year := 2024, month := 2, day := 1 }
          { year := 2023, month := 1, day := 1 } candidates
        = .error ("end_date must be >= start_date")) ∧
    (∀ (fid : Option String) (sd ed : PyDate),
      analyze_endpoint_checks fid (some sd) (some ed) = .ok () ↔ ¬ dateLt ed sd) := by
  refine ⟨?_, ?_, ?_⟩
  · intro s e
    unfold validate_date_range
    split_ifs with h1 h2 <;> simp_all [MAX_RANGE_DAYS]
  · intro f candidates
    have hv : validate_date_range { year := 2024, month := 2, day := 1 }
        { year := 2023, month := 1, day := 1 }
        = .error ("end_date must be >= start_date") := rfl
    unfold classify_subscriptions_range
    rw [hv]
  · intro fid sd ed
    unfold analyze_endpoint_checks
    split_ifs with h1 h2 h3 <;> simp_all

/-- C9 (witness): `C9_range_validation` instantiated at concrete dates and a
concrete classifier run. -/
theorem C9_range_validation_witness :
    (validate_date_range { year := 2024, month := 1, day := 1 }
        { year := 2024, month := 12, day := 31 } = .ok () ↔
      (¬ dateLt { year := 2024, month := 12, day := 31 }
          { year := 2024, month := 1, day := 1 } ∧
        daysDiff { year := 2024, month := 1, day := 1 }
          { year := 2024, month := 12, day := 31 } ≤ 365)) ∧
    classify_subscriptions_range (fun _ => .ok [])
        { year := 2024, month := 2, day := 1 } { year := 2023, month := 1, day := 1 }
        [] = .error ("end_date must be >= start_date") ∧
    (analyze_endpoint_checks none (some { year := 2024, month := 1, day := 1 })
        (some { year := 2024, month := 12, day := 31 }) = .ok () ↔
      ¬ dateLt { year := 2024, month := 12, day := 31 }
        { year := 2024, month := 1, day := 1 }) :=
  ⟨C9_range_validation.1 _ _, C9_range_validation.2.1 _ _, C9_range_validation.2.2 _ _ _⟩

/-! ## C4: per-batch decision reconciliation -/

theorem mem_pyDedup_aux [DecidableEq α] (l acc : List α) (x : α) :
    x ∈ l.foldl (fun acc x => if x ∈ acc then acc else acc ++ [x]) acc ↔
      x ∈ acc ∨ x ∈ l := by
  induction l generalizing acc with
  | nil => simp
  | cons b t ih =>
      by_cases hb : b ∈ acc
      · simp only [List.foldl_cons, if_pos hb, ih, List.mem_cons]
        constructor
        · rintro (h | h)
          · exact Or.inl h
          · exact Or.inr (Or.inr h)
        · rintro (h | h | h)
          · exact Or.inl h
          · exact Or.inl (h ▸ hb)
          · exact Or.inr h
      · simp only [List.foldl_cons, if_neg hb, ih, List.mem_append,
          List.mem_singleton, List.mem_cons]
        tauto

theorem mem_pyDedup [DecidableEq α] (l : List α) (x : α) :
    x ∈ pyDedup l ↔ x ∈ l := by
  simp [pyDedup, mem_pyDedup_aux]

theorem pyDedup_nodup_aux [DecidableEq α] (l : List α) :
    ∀ acc : List α, acc.Nodup →
      (l.foldl (fun acc x => if x ∈ acc then acc else acc ++ [x]) acc).Nodup := by
  induction l with
  | nil => intro acc h; simpa using h
  | cons b t ih =>
      intro acc h
      by_cases hb : b ∈ acc
      · simpa only [List.foldl_cons, if_pos hb] using ih acc h
      · rw [List.foldl_cons, if_neg hb]
        exact ih (acc ++ [b]) (by simp [List.nodup_append, h, hb])

theorem pyDedup_nodup [DecidableEq α] (l : List α) : (pyDedup l).Nodup :=
  pyDedup_nodup_aux l [] List.nodup_nil

/-- A duplicated model decision for one and the same transaction id. -/
def dup_decision : SubscriptionDecision :=
  { transaction_id := "a", subscription_status := "rejected",
    is_subscription := false, confidence := 1, merchant_key := none,
    subscription_name := none, reason_codes := [("one_time")] }

/-- C4 (counterexample): when the model returns two decisions for the same
valid transaction id, both pass the reconciliation filter, so the parsed list
contains two — not «exactly one» — decisions for that input id. -/
theorem C4_counterexample :
    ((parse_llm_decisions [dup_decision, dup_decision] [{ id := "a" }]).filter
        (fun d => d.transaction_id = "a")).length = 2 ∧ (2 : Nat) ≠ 1 := by
  exact ⟨by decide, by decide⟩

/-- C4 (amended): after reconciliation every decision refers to an input
transaction id (decisions for unknown ids are discarded); every input id has
at least one decision; an id the model omitted gets exactly the synthesized
`needs_review` / confidence 0 / `missing_from_response` decision; and when the
model returns no duplicate ids — the per-batch contract — each input id has
exactly one decision (the output ids are duplicate-free). -/
theorem C4_parse_reconciliation (decisions : List SubscriptionDecision)
    (input_txs : List STx) :
    (∀ d ∈ parse_llm_decisions decisions input_txs,
      d.transaction_id ∈ input_txs.map (fun t => t.id)) ∧
    (∀ t ∈ input_txs, ∃ d ∈ parse_llm_decisions decisions input_txs,
      d.transaction_id = t.id) ∧
    (∀ t ∈ input_txs, (∀ d ∈ decisions, d.transaction_id ≠ t.id) →
      missing_decision t.id ∈ parse_llm_decisions decisions input_txs) ∧
    ((decisions.map (fun d => d.transaction_id)).Nodup →
      ((parse_llm_decisions decisions input_txs).map
        (fun d => d.transaction_id)).Nodup) := by
  simp only [parse_llm_decisions]
  refine ⟨?_, ?_, ?_, ?_⟩
  · intro d hd
    rcases List.mem_append.mp hd with h | h
    · exact of_decide_eq_true (List.mem_filter.mp h).2
    · rcases List.mem_map.mp h with ⟨i, hi, rfl⟩
      have : i ∈ pyDedup (input_txs.map (fun t => t.id)) := (List.mem_filter.mp hi).1
      simpa [missing_decision] using (mem_pyDedup _ _).mp this
  · intro t ht
    by_cases h : t.id ∈ (decisions.filter
        (fun d => d.transaction_id ∈ input_txs.map (fun t => t.id))).map
          (fun d => d.transaction_id)
    · rcases List.mem_map.mp h with ⟨d, hd, hdt⟩
      exact ⟨d, List.mem_append.mpr (Or.inl hd), hdt⟩
    · refine ⟨missing_decision t.id, List.mem_append.mpr (Or.inr ?_), rfl⟩
      refine List.mem_map.mpr ⟨t.id, ?_, rfl⟩
      refine List.mem_filter.mpr ⟨?_, ?_⟩
      · exact (mem_pyDedup _ _).mpr (List.mem_map.mpr ⟨t, ht, rfl⟩)
      · simpa using h
  · intro t ht hno
    refine List.mem_append.mpr (Or.inr ?_)
    refine List.mem_map.mpr ⟨t.id, ?_, rfl⟩
    refine List.mem_filter.mpr ⟨?_, ?_⟩
    · exact (mem_pyDedup _ _).mpr (List.mem_map.mpr ⟨t, ht, rfl⟩)
    · simp only [decide_eq_true_eq]
      intro hmem
      rcases List.mem_map.mp hmem with ⟨d, hd, hdt⟩
      exact hno d (List.mem_filter.mp hd).1 hdt
  · intro hnd
    rw [List.map_append, List.nodup_append]
    refine ⟨?_, ?_, ?_⟩
    · exact hnd.sublist (List.Sublist.map _ (List.filter_sublist _))
    · have hid : ∀ i, (missing_decision i).transaction_id = i := fun i => rfl
      rw [List.map_map]
      have : ((fun d : SubscriptionDecision => d.transaction_id) ∘ missing_decision)
          = id := by
        funext i; rfl
      rw [this, List.map_id]
      exact (pyDedup_nodup _).filter _
    · intro a ha hb
      rcases List.mem_map.mp ha with ⟨d, hd, rfl⟩
      rw [List.map_map] at hb
      rcases List.mem_map.mp hb with ⟨i, hi, hit⟩
      have hnotin := (List.mem_filter.mp hi).2
      simp only [decide_eq_true_eq] at hnotin
      have hii : ((fun d : SubscriptionDecision => d.transaction_id) ∘ missing_decision) i
          = i := rfl
      rw [hii] at hit
      subst hit
      exact hnotin (List.mem_map.mpr ⟨d, hd, rfl⟩)

/-- C4 (witness): `C4_parse_reconciliation` on a two-transaction batch where
the model answered only one id. -/
theorem C4_parse_reconciliation_witness :
    (∀ d ∈ parse_llm_decisions [dup_decision] [{ id := "a" }, { id := "b" }],
      d.transaction_id ∈ [({ id := "a" } : STx), { id := "b" }].map (fun t => t.id)) ∧
    (∀ t ∈ [({ id := "a" } : STx), { id := "b" }],
      ∃ d ∈ parse_llm_decisions [dup_decision] [{ id := "a" }, { id := "b" }],
        d.transaction_id = t.id) ∧
    (∀ t ∈ [({ id := "a" } : STx), { id := "b" }],
      (∀ d ∈ [dup_decision], d.transaction_id ≠ t.id) →
        missing_decision t.id ∈
          parse_llm_decisions [dup_decision] [{ id := "a" }, { id := "b" }]) ∧
    (([dup_decision].map (fun d => d.transaction_id)).Nodup →
      ((parse_llm_decisions [dup_decision] [{ id := "a" }, { id := "b" }]).map
        (fun d => d.transaction_id)).Nodup) :=
  C4_parse_reconciliation [dup_decision] [{ id := "a" }, { id := "b" }]

/-! ## C2: failed batches degrade, they do not abort -/

theorem mark_batch_spec (batch : List STx) (st : RunState) :
    mark_batch_as_needs_review batch st =
      { summary := { st.summary with
          total_processed := st.summary.total_processed + batch.length,
          needs_review_count := st.summary.needs_review_count + batch.length },
        db_updates := st.db_updates ++ batch.map (fun t => needs_review_update t.id) } := by
  induction batch generalizing st with
  | nil =>
      cases st with
      | mk s db => cases s; simp [mark_batch_as_needs_review]
  | cons t ts ih =>
      have hstep : mark_batch_as_needs_review (t :: ts) st =
          mark_batch_as_needs_review ts
            { summary := { st.summary with
                total_processed := st.summary.total_processed + 1,
                needs_review_count := st.summary.needs_review_count + 1 },
              db_updates := st.db_updates ++ [needs_review_update t.id] } := rfl
      rw [hstep, ih]
      cases st with
      | mk s db =>
          cases s
          simp only [List.map_cons, List.length_cons, RunState.mk.injEq,
            ClassificationSummary.mk.injEq, List.append_assoc, List.singleton_append,
            List.cons_append, List.nil_append, true_and, and_true]
          omega

/-- The per-transaction classifier scenario fixture: 301 candidate
transactions. -/
def exSTx (i : Nat) : STx := { id := "tx" ++ toString i }

def exCandidates : List STx := (List.range 301).map exSTx

/-- A well-formed model decision for a transaction of the first batch. -/
def rejected_decision (t : STx) : SubscriptionDecision :=
  { transaction_id := t.id, subscription_status := "rejected",
    is_subscription := false, confidence := 1, merchant_key := none,
    subscription_name := none, reason_codes := [("one_time")] }

/-- A classifier stub whose call fails exactly on the batch containing the
301st transaction (the second batch). -/
def exClassify (batch : List STx) : Except String (List SubscriptionDecision) :=
  if batch.any (fun t => t.id = "tx300") then .error ("forced failure")
  else .ok (batch.map rejected_decision)

/-- The failed-batch record expected in the 301-transaction scenario. -/
def exFailedBatch : FailedBatch :=
  { batch_start := 300, batch_end := 301, error := "forced failure",
    transaction_ids := [("tx300")] }

/-- C2: a failed batch never aborts the run.  First conjunct: whenever the
model call of the batch starting at index `bs` raises, the loop step records
the batch's boundaries, error and affected ids as one new `failed_batches`
entry, counts every transaction of the batch as processed and needs-review,
writes a `needs_review` / confidence-0 / `batch_failed` update for each of
them, and returns normally (so the fold over the remaining batches
continues).  Second conjunct: the 301-candidate scenario with batch size 300
and the second batch's call forced to fail yields `total_processed = 301`,
`needs_review_count = 1 ≥ 1`, exactly one failed-batch entry covering
[300, 301), and the single needs-review update is for the 301st transaction
with confidence 0 and reason code `batch_failed`. -/
theorem C2_batch_isolation :
    (∀ (f : List STx → Except String (List SubscriptionDecision))
        (candidates : List STx) (bs : Nat) (st : RunState) (e : String),
      f ((candidates.drop bs).take BATCH_SIZE) = .error e →
        classify_batch_step f candidates bs st =
          { summary := { st.summary with
              total_processed := st.summary.total_processed +
                ((candidates.drop bs).take BATCH_SIZE).length,
              needs_review_count := st.summary.needs_review_count +
                ((candidates.drop bs).take BATCH_SIZE).length,
              failed_batches := st.summary.failed_batches ++
                [{ batch_start := bs,
                   batch_end := min (bs + BATCH_SIZE) candidates.length,
                   error := e,
                   transaction_ids :=
                     ((candidates.drop bs).take BATCH_SIZE).map (fun t => t.id) }] },
            db_updates := st.db_updates ++
              ((candidates.drop bs).take BATCH_SIZE).map
                (fun t => needs_review_update t.id) }) ∧
    ((classify_subscriptions_range exClassify
        { year := 2024, month := 1, day := 1 } { year := 2024, month := 12, day := 31 }
        exCandidates).toOption.map
          (fun st => (st.summary.total_processed, st.summary.needs_review_count,
            st.summary.failed_batches))
      = some (301, 1, [exFailedBatch]) ∧
      (1 : Nat) ≥ 1 ∧
      (classify_subscriptions_range exClassify
        { year := 2024, month := 1, day := 1 } { year := 2024, month := 12, day := 31 }
        exCandidates).toOption.map
          (fun st => (st.db_updates.filter
              (fun u => u.subscription_status = "needs_review")).map
                (fun u => (u.transaction_id, u.subscription_reason_codes)))
      = some [(("tx300"), [("batch_failed")])]) := by
  constructor
  · intro f candidates bs st e hf
    rw [classify_batch_step]
    simp only [hf]
    rw [mark_batch_spec]
  · refine ⟨?_, by decide, ?_⟩
    · set_option maxRecDepth 10000 in decide
    · set_option maxRecDepth 10000 in decide

/-- C2 (witness): the failed-batch step equation of `C2_batch_isolation`
instantiated on the scenario's second batch. -/
theorem C2_batch_isolation_witness :
    exClassify ((exCandidates.drop 300).take BATCH_SIZE) = .error ("forced failure") ∧
    classify_batch_step exClassify exCandidates 300
        (init_run { year := 2024, month := 1, day := 1 }
          { year := 2024, month := 12, day := 31 }) =
      { summary := { (init_run { year := 2024, month := 1, day := 1 }
            { year := 2024, month := 12, day := 31 }).summary with
          total_processed := (init_run { year := 2024, month := 1, day := 1 }
              { year := 2024, month := 12, day := 31 }).summary.total_processed +
            ((exCandidates.drop 300).take BATCH_SIZE).length,
          needs_review_count := (init_run { year := 2024, month := 1, day := 1 }
              { year := 2024, month := 12, day := 31 }).summary.needs_review_count +
            ((exCandidates.drop 300).take BATCH_SIZE).length,
          failed_batches := (init_run { year := 2024, month := 1, day := 1 }
              { year := 2024, month := 12, day := 31 }).summary.failed_batches ++
            [{ batch_start := 300,
               batch_end := min (300 + BATCH_SIZE) exCandidates.length,
               error := "forced failure",
               transaction_ids :=
                 ((exCandidates.drop 300).take BATCH_SIZE).map (fun t => t.id) }] },
        db_updates := (init_run { year := 2024, month := 1, day := 1 }
            { year := 2024, month := 12, day := 31 }).db_updates ++
          ((exCandidates.drop 300).take BATCH_SIZE).map
            (fun t => needs_review_update t.id) } :=
  ⟨by set_option maxRecDepth 10000 in rfl,
    C2_batch_isolation.1 exClassify exCandidates 300
      (init_run { year := 2024, month := 1, day := 1 }
        { year := 2024, month := 12, day := 31 }) ("forced failure")
      (by set_option maxRecDepth 10000 in rfl)⟩

/-! ## C6: replace-not-accumulate persistence of AI insights -/

/-- C6: before an analyze run inserts, every prior `ai_analysis`-sourced
insight of the (user, scope) is deleted — scoped to the file when a file id is
given, to the whole user otherwise — and nothing else is touched; every record
`_save_insights` builds carries that scope and source; hence two runs over the
same scope whose generated lists have equal length leave the store with the
same number of insights (re-running replaces, it never accumulates). -/
theorem C6_replace_semantics :
    (∀ (uid : Nat) (fid : Option String) (store : List FinancialInsight),
      ∀ i ∈ (delete_user_ai_insights uid fid store).1,
        ¬ (insight_scope_matches uid fid i ∧ i.metadata_source = "ai_analysis")) ∧
    (∀ (uid : Nat) (fid : Option String) (store : List FinancialInsight),
      ∀ i ∈ store, ¬ (insight_scope_matches uid fid i ∧ i.metadata_source = "ai_analysis") →
        i ∈ (delete_user_ai_insights uid fid store).1) ∧
    (∀ (uid : Nat) (fid : Option String) (out : FixedOutput),
      ∀ i ∈ build_insights uid fid out,
        insight_scope_matches uid fid i ∧ i.metadata_source = "ai_analysis") ∧
    (∀ (uid : Nat) (fid : Option String) (store new1 new2 : List FinancialInsight),
      (∀ i ∈ new1, insight_scope_matches uid fid i ∧ i.metadata_source = "ai_analysis") →
      (∀ i ∈ new2, insight_scope_matches uid fid i ∧ i.metadata_source = "ai_analysis") →
      new1.length = new2.length →
        (save_insights uid fid new2 (save_insights uid fid new1 store)).length
          = (save_insights uid fid new1 store).length) := by
  refine ⟨?_, ?_, ?_, ?_⟩
  · intro uid fid store i hi
    exact of_decide_eq_true (List.mem_filter.mp hi).2
  · intro uid fid store i hi hni
    exact List.mem_filter.mpr ⟨hi, decide_eq_true hni⟩
  · intro uid fid out i hi
    rcases List.mem_append.mp hi with h | h
    · rcases List.mem_append.mp h with h2 | h2
      · rcases List.mem_map.mp h2 with ⟨p, _, rfl⟩
        refine ⟨?_, rfl⟩
        simp only [insight_scope_matches]
        cases fid <;> simp
      · rcases List.mem_map.mp h2 with ⟨a, _, rfl⟩
        refine ⟨?_, rfl⟩
        simp only [insight_scope_matches]
        cases fid <;> simp
    · rcases List.mem_map.mp h with ⟨r, _, rfl⟩
      refine ⟨?_, rfl⟩
      simp only [insight_scope_matches]
      cases fid <;> simp
  · intro uid fid store new1 new2 h1 h2 hlen
    have key : (delete_user_ai_insights uid fid
        ((delete_user_ai_insights uid fid store).1 ++ new1)).1
        = (delete_user_ai_insights uid fid store).1 := by
      simp only [delete_user_ai_insights, List.filter_append]
      have hA : (List.filter
          (fun i => decide
            (¬ (insight_scope_matches uid fid i ∧ i.metadata_source = "ai_analysis")))
          (List.filter
            (fun i => decide
              (¬ (insight_scope_matches uid fid i ∧ i.metadata_source = "ai_analysis")))
            store))
          = (List.filter
            (fun i => decide
              (¬ (insight_scope_matches uid fid i ∧ i.metadata_source = "ai_analysis")))
            store) := by
        apply List.filter_eq_self.mpr
        intro a ha
        exact (List.mem_filter.mp ha).2
      have hB : (List.filter
          (fun i => decide
            (¬ (insight_scope_matches uid fid i ∧ i.metadata_source = "ai_analysis")))
          new1) = [] := by
        apply List.filter_eq_nil_iff.mpr
        intro a ha
        simpa using h1 a ha
      rw [hA, hB, List.append_nil]
    simp only [save_insights]
    rw [key]
    simp [hlen]

/-- A foreign user's AI insight, untouched by user 1's runs. -/
def insForeign : FinancialInsight :=
  { user_id := 2, file_id := none, insight_type := "pattern", title := "x",
    description := "d", metadata_source := "ai_analysis" }

/-- A stale AI insight of user 1 attached to a file. -/
def insOldAI : FinancialInsight :=
  { user_id := 1, file_id := some ("f1"), insight_type := "pattern",
    title := "old", description := "d", metadata_source := "ai_analysis" }

/-- The single insight generated by the first scenario run. -/
def insNew1 : FinancialInsight :=
  { user_id := 1, file_id := none, insight_type := "pattern", title := "n1",
    description := "d", metadata_source := "ai_analysis" }

/-- The single insight generated by the second scenario run. -/
def insNew2 : FinancialInsight :=
  { user_id := 1, file_id := none, insight_type := "alert", title := "n2",
    description := "d", metadata_source := "ai_analysis" }

/-- C6 (witness): `C6_replace_semantics` exercised on a concrete store and two
equal-length runs in range mode. -/
theorem C6_replace_semantics_witness :
    (∀ i ∈ (delete_user_ai_insights 1 none [insForeign]).1,
      ¬ (insight_scope_matches 1 none i ∧ i.metadata_source = "ai_analysis")) ∧
    ((∀ i ∈ [insNew1], insight_scope_matches 1 none i ∧
        i.metadata_source = "ai_analysis") ∧
      (∀ i ∈ [insNew2], insight_scope_matches 1 none i ∧
        i.metadata_source = "ai_analysis") ∧
      [insNew1].length = [insNew2].length ∧
      (save_insights 1 none [insNew2] (save_insights 1 none [insNew1] [insOldAI])).length
        = (save_insights 1 none [insNew1] [insOldAI]).length) :=
  ⟨C6_replace_semantics.1 1 none [insForeign],
    by
      have h1 : ∀ i ∈ [insNew1], insight_scope_matches 1 none i ∧
          i.metadata_source = "ai_analysis" := by decide
      have h2 : ∀ i ∈ [insNew2], insight_scope_matches 1 none i ∧
          i.metadata_source = "ai_analysis" := by decide
      exact ⟨h1, h2, rfl,
        C6_replace_semantics.2.2.2 1 none [insOldAI] [insNew1] [insNew2] h1 h2 rfl⟩⟩

/-! ## C7: merchant-frequency candidates -/

theorem ratFloor_eq_intFloor (a : Rat) : a.floor = ⌊a⌋ := by
  rw [Rat.floor_def', Rat.floor_def]

theorem pyRound_intCast (n : Int) : pyRound ((n : Rat)) = n := by
  unfold pyRound
  rw [ratFloor_eq_intFloor, Int.floor_intCast]
  norm_num

theorem round4_eq (x : Rat) (n : Int) (h : x * 10000 = (n : Rat)) :
    round4 x = (n : Rat) / 10000 := by
  unfold round4
  rw [h, pyRound_intCast]

/-- One café transaction of the C7 fixture. -/
def exMtx (n : Nat) (amt : Rat) : ATx :=
  { id := "m" ++ toString n, description := "", merchant_name := "CafeM",
    amount := amt, transaction_type := "debit", category := "food" }

/-- Thirteen café debits with ascending amounts 101..113 (total 1391). -/
def exMtxs : List ATx :=
  [exMtx 1 101, exMtx 2 102, exMtx 3 103, exMtx 4 104, exMtx 5 105, exMtx 6 106,
   exMtx 7 107, exMtx 8 108, exMtx 9 109, exMtx 10 110, exMtx 11 111,
   exMtx 12 112, exMtx 13 113]

/-- One further debit of 609 at another merchant (grand total 2000). -/
def exNtx : ATx :=
  { id := "n1", description := "", merchant_name := "ShopN", amount := 609,
    transaction_type := "debit", category := "other" }

def exC7 : List ATx := exMtxs ++ [exNtx]

/-- The café merchant group of the fixture. -/
def exGM : MGroup := { name := "CafeM", txs := exMtxs }

theorem exC7_groups : merchant_sorted exC7 = [exGM, { name := "ShopN", txs := [exNtx] }] := by
  decide

theorem exC7_total : total_expenses exC7 = 2000 := by
  have hfil : debitTxs exC7 = exC7 := by decide
  unfold total_expenses
  rw [hfil]
  norm_num [exC7, exMtxs, exNtx, exMtx]

theorem exGM_total : exGM.total = 1391 := by
  norm_num [MGroup.total, exGM, exMtxs, exMtx]

theorem exC7_candidates : merchant_frequency_candidates ("MYR") exC7
    = [mk_merchant_candidate ("MYR") (total_expenses exC7) exGM] := by
  show ((merchant_sorted exC7).take 10).filterMap _ = _
  rw [exC7_groups]
  rfl

/-- C7 (counterexample): on the fixture the emitted merchant-frequency
candidate for the 13-transaction café has `severity_score`
`min(1, 0.6·(13/12) + 0.4·share)` rounded to 4 places = 0.9282, whereas the
claimed formula `0.6·min(1, 13/12) + 0.4·share` gives 0.8782: the code caps
the whole sum, not the count term, so the claimed formula is wrong whenever a
merchant group has more than 12 transactions. -/
theorem C7_counterexample :
    ((merchant_frequency_candidates ("MYR") exC7).map
        (fun c => (c.key, c.count, c.severity_score)))
      = [(("merchant_frequency:cafem"), 13, (9282 : Rat) / 10000)] ∧
    (0.6 : Rat) * min 1 ((13 : Rat) / 12) + 0.4 * (1391 / 2000)
      = (8782 : Rat) / 10000 ∧
    ((9282 : Rat) / 10000) ≠ (8782 : Rat) / 10000 := by
  refine ⟨?_, ?_, by norm_num⟩
  · rw [exC7_candidates]
    have hkey : (mk_merchant_candidate ("MYR") (total_expenses exC7) exGM).key
        = "merchant_frequency:cafem" := by decide
    have hcount : (mk_merchant_candidate ("MYR") (total_expenses exC7) exGM).count
        = 13 := by decide
    have hsev : (mk_merchant_candidate ("MYR") (total_expenses exC7) exGM).severity_score
        = (9282 : Rat) / 10000 := by
      show round4 (min 1 (((exGM.count : Rat) / 12) * 0.6 +
        (if 0 < total_expenses exC7 then exGM.total / total_expenses exC7 else 0) * 0.4))
        = (9282 : Rat) / 10000
      rw [exC7_total, exGM_total]
      have hgc : exGM.count = 13 := by decide
      rw [hgc]
      have hif : (if (0 : Rat) < 2000 then (1391 : Rat) / 2000 else 0) = 1391 / 2000 := by
        norm_num
      rw [hif]
      have hval : min (1 : Rat) (((13 : Nat) : Rat) / 12 * 0.6 + (1391 / 2000) * 0.4)
          = 4641 / 5000 := by
        rw [min_eq_right (by norm_num)]
        norm_num
      rw [hval, round4_eq (4641 / 5000) 9282 (by norm_num)]
      norm_num
    simp [hkey, hcount, hsev]
  · rw [min_eq_left (by norm_num)]
    norm_num

/-- C7 (amended): for every merchant group among the top 10 by (transaction
count, total) — not every group — with at least 4 transactions, a
`merchant_frequency` candidate is emitted whose key is
`merchant_frequency:` + the normalized merchant name, whose severity score is
`min(1, 0.6·(count/12) + 0.4·(merchant total / total debit spend))` rounded to
4 decimal places — the cap applies to the whole sum — and whose evidence is
the (non-empty) ids of the top 3 of the merchant's transactions by amount. -/
theorem C7_merchant_frequency (fc : String) (txs : List ATx) (g : MGroup)
    (hg : g ∈ (merchant_sorted txs).take 10) (hcount : 4 ≤ g.count) :
    ∃ c ∈ merchant_frequency_candidates fc txs,
      c.key = "merchant_frequency:" ++ normalize_key g.name ∧
      c.count = g.count ∧
      c.severity_score = round4 (min 1 (((g.count : Rat) / 12) * 0.6 +
        (if 0 < total_expenses txs then g.total / total_expenses txs else 0) * 0.4)) ∧
      c.supporting_transaction_ids =
        ((pySorted (fun x a => decide (a.amount ≤ x.amount)) g.txs).take 3).filterMap
          (fun t => if t.id = "" then none else some t.id) := by
  refine ⟨mk_merchant_candidate fc (total_expenses txs) g, ?_, rfl, rfl, rfl, rfl⟩
  exact List.mem_filterMap.mpr ⟨g, hg, by rw [if_neg (Nat.not_lt.mpr hcount)]⟩

/-- C7 (witness): `C7_merchant_frequency` on the café group of the fixture. -/
theorem C7_merchant_frequency_witness :
    exGM ∈ (merchant_sorted exC7).take 10 ∧ 4 ≤ exGM.count ∧
    (∃ c ∈ merchant_frequency_candidates ("MYR") exC7,
      c.key = "merchant_frequency:" ++ normalize_key exGM.name ∧
      c.count = exGM.count ∧
      c.severity_score = round4 (min 1 (((exGM.count : Rat) / 12) * 0.6 +
        (if 0 < total_expenses exC7 then exGM.total / total_expenses exC7 else 0) * 0.4)) ∧
      c.supporting_transaction_ids =
        ((pySorted (fun x a => decide (a.amount ≤ x.amount)) exGM.txs).take 3).filterMap
          (fun t => if t.id = "" then none else some t.id)) :=
  ⟨by decide, by decide,
    C7_merchant_frequency ("MYR") exC7 exGM (by decide) (by decide)⟩

/-! ## C1/C3/C8/C10: validator lemmas -/

theorem toList_asString (l : List Char) : (l.asString).toList = l := rfl

theorem hasDollar_false_iff (s : String) : hasDollar s = false ↔ '$' ∉ s.toList := by
  simp [hasDollar]

theorem subDollarGo_no_dollar (fcL : List Char) (hfc : '$' ∉ fcL) :
    ∀ (skip : Bool) (cs : List Char), '$' ∉ subDollarGo fcL skip cs := by
  intro skip cs
  induction cs generalizing skip with
  | nil => simp [subDollarGo]
  | cons c rest ih =>
      by_cases hc : c = '$'
      · subst hc
        simp only [subDollarGo, if_pos rfl]
        intro hmem
        rcases List.mem_append.mp hmem with h | h
        · exact hfc h
        · rcases List.mem_cons.mp h with h | h
          · exact absurd h.symm (by decide)
          · exact ih true h
      · simp only [subDollarGo, if_neg hc]
        by_cases hsk : (skip ∧ isPySpace c = true)
        · rw [if_pos hsk]; exact ih true
        · rw [if_neg hsk]
          intro hmem
          rcases List.mem_cons.mp hmem with h | h
          · exact hc h.symm
          · exact ih false h

theorem scrub_no_dollar (fc s : String) (hfc : hasDollar fc = false) :
    hasDollar (scrub_dollar fc s) = false := by
  by_cases h1 : hasDollar s = true
  · unfold scrub_dollar
    rw [if_neg (by simp [h1])]
    by_cases h2 : (fc ≠ "" ∧ fc ≠ "MULTI")
    · rw [if_pos h2, hasDollar_false_iff, toList_asString]
      exact subDollarGo_no_dollar fc.toList ((hasDollar_false_iff fc).mp hfc) false s.toList
    · rw [if_neg h2, hasDollar_false_iff, toList_asString]
      intro hmem
      have hf := (List.mem_filter.mp hmem).2
      simp at hf
  · unfold scrub_dollar
    rw [if_pos (by simpa using h1)]
    simpa using h1

theorem mem_pyStrip (s : String) (c : Char) (h : c ∈ (pyStrip s).toList) :
    c ∈ s.toList := by
  rw [pyStrip, toList_asString] at h
  have h1 := (List.dropWhile_sublist (l := ((s.toList.dropWhile isPySpace).reverse))
    (p := isPySpace)).mem (List.mem_reverse.mp h)
  have h2 := (List.dropWhile_sublist (l := s.toList) (p := isPySpace)).mem
    (List.mem_reverse.mp h1)
  exact h2

theorem mem_pyRStrip (s : String) (c : Char) (h : c ∈ (pyRStrip s).toList) :
    c ∈ s.toList := by
  rw [pyRStrip, toList_asString] at h
  have h1 := (List.dropWhile_sublist (l := s.toList.reverse)
    (p := isPySpace)).mem (List.mem_reverse.mp h)
  exact List.mem_reverse.mp h1

theorem mem_strTake (n : Nat) (s : String) (c : Char) (h : c ∈ (strTake n s).toList) :
    c ∈ s.toList := by
  rw [strTake, toList_asString] at h
  exact (List.take_sublist n s.toList).mem h

theorem toList_append (a b : String) : (a ++ b).toList = a.toList ++ b.toList := rfl

theorem clamp_no_dollar (fc s : String) (n : Nat) (hfc : hasDollar fc = false) :
    hasDollar (clamp_str fc s n) = false := by
  have hs2 : hasDollar (pyStrip (scrub_dollar fc s)) = false := by
    rw [hasDollar_false_iff]
    intro hmem
    exact absurd (mem_pyStrip _ _ hmem)
      ((hasDollar_false_iff _).mp (scrub_no_dollar fc s hfc))
  unfold clamp_str
  split_ifs with h1
  · exact hs2
  · rw [hasDollar_false_iff, toList_append]
    intro hmem
    rcases List.mem_append.mp hmem with h | h
    · exact absurd (mem_pyStrip _ _ (mem_strTake _ _ _ (mem_pyRStrip _ _ h)))
        ((hasDollar_false_iff _).mp (scrub_no_dollar fc s hfc))
    · exact absurd h (by decide)

theorem pyLen_append (a b : String) : pyLen (a ++ b) = pyLen a + pyLen b := by
  simp [pyLen, toList_append]

theorem pyLen_pyRStrip_le (s : String) : pyLen (pyRStrip s) ≤ pyLen s := by
  rw [pyRStrip, pyLen, pyLen, toList_asString]
  calc ((s.toList.reverse.dropWhile isPySpace).reverse).length
      = (s.toList.reverse.dropWhile isPySpace).length := List.length_reverse _
    _ ≤ s.toList.reverse.length := (List.dropWhile_sublist _).length_le
    _ = s.toList.length := List.length_reverse _

theorem pyLen_strTake_le (n : Nat) (s : String) : pyLen (strTake n s) ≤ n := by
  rw [strTake, pyLen, toList_asString]
  exact (List.length_take _ _).trans_le (min_le_left _ _)

theorem clamp_len (fc s : String) (n : Nat) (hn : 1 ≤ n) :
    pyLen (clamp_str fc s n) ≤ n := by
  unfold clamp_str
  split_ifs with h1
  · exact h1
  · rw [pyLen_append]
    have h2 : pyLen (pyRStrip (strTake (n - 1) (pyStrip (scrub_dollar fc s)))) ≤ n - 1 :=
      (pyLen_pyRStrip_le _).trans (pyLen_strTake_le _ _)
    have h3 : pyLen ("…") = 1 := by decide
    omega

theorem clamp_ellipsis (fc s : String) (n : Nat)
    (h : n < pyLen (pyStrip (scrub_dollar fc s))) :
    ∃ t, clamp_str fc s n = t ++ "…" := by
  unfold clamp_str
  rw [if_neg (by omega)]
  exact ⟨_, rfl⟩

theorem scrub_id (fc s : String) (h : hasDollar s = false) : scrub_dollar fc s = s := by
  unfold scrub_dollar
  rw [if_pos (by simp [h])]

theorem clamp_id (fc s : String) (n : Nat) (hd : hasDollar s = false)
    (hs : pyStrip s = s) (hl : pyLen s ≤ n) : clamp_str fc s n = s := by
  unfold clamp_str
  rw [scrub_id fc s hd, hs, if_pos hl]

theorem orEmpty_ne_empty (a b : String) (hb : b ≠ "") : orEmpty a b ≠ "" := by
  unfold orEmpty
  split_ifs with h
  · exact hb
  · exact h

theorem orEmpty_of_ne (a b : String) (ha : a ≠ "") : orEmpty a b = a := by
  unfold orEmpty
  rw [if_neg ha]

theorem sevMap_canonical (s r : String) (h : sevMap s = some r) :
    r = "info" ∨ r = "warning" ∨ r = "critical" := by
  unfold sevMap at h
  split_ifs at h <;> injection h with h2 <;> (subst h2; simp)

theorem normalize_severity_str_canonical (s r : String)
    (h : normalize_severity_str s = some r) :
    r = "info" ∨ r = "warning" ∨ r = "critical" := by
  unfold normalize_severity_str at h
  split_ifs at h with h1
  all_goals
    first
    | exact Option.noConfusion h
    | exact sevMap_canonical _ _ h

theorem normalize_severity_ok_of_well_typed (v : JVal)
    (h : truthy v = false ∨ ∃ s, v = .str s) :
    ∃ o, normalize_severity v = .ok o := by
  unfold normalize_severity
  rcases h with h | ⟨s, rfl⟩
  · rw [if_pos (by simp [h])]
    exact ⟨none, rfl⟩
  · by_cases ht : truthy (.str s) = true
    · rw [if_neg (by simp [ht])]
      exact ⟨_, rfl⟩
    · rw [if_pos (by simpa using ht)]
      exact ⟨none, rfl⟩

theorem normalize_severity_canonical (v : JVal) (r : String)
    (h : normalize_severity v = .ok (some r)) :
    r = "info" ∨ r = "warning" ∨ r = "critical" := by
  unfold normalize_severity at h
  split_ifs at h with h1
  all_goals
    first
    | exact Option.noConfusion (Except.ok.inj h)
    | cases v with
      | str s => exact sevMap_canonical _ _ (Except.ok.inj h)
      | null => exact Except.noConfusion h
      | bool b => exact Except.noConfusion h
      | num q => exact Except.noConfusion h
      | arr l => exact Except.noConfusion h
      | obj l => exact Except.noConfusion h

theorem spending_key_candidate_some (cbk : List (String × Candidate))
    (fields : List (String × JVal)) (k : String) (c : Candidate)
    (h : spending_key_candidate cbk fields = some (k, c)) :
    jObjGet fields "source_candidate_key" = some (.str k) ∧ k ≠ "" ∧
      lookupCand cbk k = some c := by
  unfold spending_key_candidate at h
  split at h
  next key heq =>
    split_ifs at h with hk0
    all_goals first
      | exact Option.noConfusion h
      | (cases hl : lookupCand cbk key with
          | none => rw [hl] at h; exact Option.noConfusion h
          | some c2 =>
              rw [hl] at h
              have h2 := Option.some.inj h
              have hk : key = k := congrArg Prod.fst h2
              have hc : c2 = c := congrArg Prod.snd h2
              subst hk
              subst hc
              exact ⟨heq, hk0, hl⟩)
  next heq2 => exact Option.noConfusion h

theorem spending_ids_le_three (cand : Candidate) (fields : List (String × JVal)) :
    (spending_ids cand fields).length ≤ 3 := by
  unfold spending_ids
  apply List.length_take_le

theorem spending_ids_backfill (cand : Candidate) (fields : List (String × JVal))
    (hmiss : ∀ l, jObjGet fields "supporting_transaction_ids" = some (.arr l) → l = []) :
    spending_ids cand fields
      = (cand.supporting_transaction_ids.filter (fun s => s ≠ "")).take 3 := by
  unfold spending_ids
  split
  next l heq =>
    have hl : l = [] := hmiss l heq
    subst hl
    simp
  next heq2 => rfl

theorem fix_spending_item_some (cbk : List (String × Candidate)) (fc : String)
    (item : JVal) (p : FixedPattern)
    (h : fix_spending_item cbk fc item = .ok (some p)) :
    ∃ fields cand sevOpt, item = .obj fields ∧
      spending_key_candidate cbk fields = some (p.source_candidate_key, cand) ∧
      normalize_severity (jObjGetD fields "severity" .null) = .ok sevOpt ∧
      (spending_ids cand fields).isEmpty = false ∧
      p = mk_fixed_pattern fc fields p.source_candidate_key cand sevOpt := by
  unfold fix_spending_item at h
  split at h
  next fields =>
    split at h
    next hk => exact Option.noConfusion (Except.ok.inj h)
    next key cand hk =>
      split_ifs at h with hids
      · exact Option.noConfusion (Except.ok.inj h)
      · split at h
        next e hsev => exact Except.noConfusion h
        next sevOpt hsev =>
            have hp := Option.some.inj (Except.ok.inj h)
            have hkey : p.source_candidate_key = key := by rw [← hp]; rfl
            subst hkey
            exact ⟨fields, cand, sevOpt, rfl, hk, hsev,
              Bool.eq_false_iff.mpr hids, hp.symm⟩
  next item2 hne => exact Option.noConfusion (Except.ok.inj h)

theorem mem_fix_spending_list (cbk : List (String × Candidate)) (fc : String) :
    ∀ (l : List JVal) (ps : List FixedPattern),
      fix_spending_list cbk fc l = .ok ps →
      ∀ p ∈ ps, ∃ item ∈ l, fix_spending_item cbk fc item = .ok (some p) := by
  intro l
  induction l with
  | nil =>
      intro ps h p hp
      unfold fix_spending_list at h
      have h2 := Except.ok.inj h
      subst h2
      exact absurd hp (by simp)
  | cons item rest ih =>
      intro ps h p hp
      unfold fix_spending_list at h
      split at h
      next e heq => exact Except.noConfusion h
      next heq =>
          obtain ⟨item2, h2, h3⟩ := ih ps h p hp
          exact ⟨item2, List.mem_cons_of_mem _ h2, h3⟩
      next q heq =>
          split at h
          next e heq2 => exact Except.noConfusion h
          next ps2 heq2 =>
              have hps := Except.ok.inj h
              subst hps
              rcases List.mem_cons.mp hp with hpq | hp2
              · subst hpq
                exact ⟨item, List.mem_cons_self _ _, heq⟩
              · obtain ⟨item2, h2, h3⟩ := ih ps2 heq2 p hp2
                exact ⟨item2, List.mem_cons_of_mem _ h2, h3⟩

theorem fix_alert_item_some (fc : String) (item : JVal) (a : FixedAlert)
    (h : fix_alert_item fc item = .ok (some a)) :
    ∃ fields sevOpt, item = .obj fields ∧
      normalize_severity (jObjGetD fields "severity" .null) = .ok sevOpt ∧
      a = mk_fixed_alert fc fields sevOpt := by
  unfold fix_alert_item at h
  split at h
  next fields =>
    split at h
    next e hsev => exact Except.noConfusion h
    next sevOpt hsev =>
        exact ⟨fields, sevOpt, rfl, hsev, (Option.some.inj (Except.ok.inj h)).symm⟩
  next item2 hne => exact Option.noConfusion (Except.ok.inj h)

theorem mem_fix_alert_list (fc : String) :
    ∀ (l : List JVal) (as_ : List FixedAlert),
      fix_alert_list fc l = .ok as_ →
      ∀ a ∈ as_, ∃ item ∈ l, fix_alert_item fc item = .ok (some a) := by
  intro l
  induction l with
  | nil =>
      intro as_ h a ha
      unfold fix_alert_list at h
      have h2 := Except.ok.inj h
      subst h2
      exact absurd ha (by simp)
  | cons item rest ih =>
      intro as_ h a ha
      unfold fix_alert_list at h
      split at h
      next e heq => exact Except.noConfusion h
      next heq =>
          obtain ⟨item2, h2, h3⟩ := ih as_ h a ha
          exact ⟨item2, List.mem_cons_of_mem _ h2, h3⟩
      next q heq =>
          split at h
          next e heq2 => exact Except.noConfusion h
          next as2 heq2 =>
              have has := Except.ok.inj h
              subst has
              rcases List.mem_cons.mp ha with haq | ha2
              · subst haq
                exact ⟨item, List.mem_cons_self _ _, heq⟩
              · obtain ⟨item2, h2, h3⟩ := ih as2 heq2 a ha2
                exact ⟨item2, List.mem_cons_of_mem _ h2, h3⟩

theorem fix_rec_item_some (fc : String) (titles : List String) (item : JVal)
    (r : FixedRec) (h : fix_rec_item fc titles item = .ok (some r)) :
    ∃ fields, item = .obj fields ∧ r.linked_to_title ∈ titles ∧
      r.title = orEmpty (clamp_any fc (jObjGetD fields "title" (.str (""))) 52)
        ("Recommendation") ∧
      r.detail = clamp_any fc
        (jObjGetD fields "detail" (jObjGetD fields "description" (.str ("")))) 140 := by
  unfold fix_rec_item at h
  split at h
  next fields =>
    split at h
    all_goals first
      | exact Except.noConfusion h
      | exact Option.noConfusion (Except.ok.inj h)
      | (split_ifs at h with hl
         all_goals first
           | exact Option.noConfusion (Except.ok.inj h)
           | (have hr := Option.some.inj (Except.ok.inj h)
              subst hr
              exact ⟨fields, rfl, hl, rfl, rfl⟩))
  next item2 hne => exact Option.noConfusion (Except.ok.inj h)

theorem validate_ok_parts (llm : JVal) (cbk : List (String × Candidate))
    (fc : String) (out : FixedOutput)
    (h : validate_and_fix_output llm cbk fc = .ok out) :
    ∃ fixed0 alerts0 recs0,
      fix_spending_list cbk fc
        (ensure_list (jObjGetD (obj_fields llm) "spending_insights" .null)) = .ok fixed0 ∧
      fix_alert_list fc
        (ensure_list (jObjGetD (obj_fields llm) "alerts" .null)) = .ok alerts0 ∧
      fix_rec_list fc
        (((pySorted (spend_le cbk) fixed0).take 3).map (fun p => p.title) ++
          (alerts0.take 2).map (fun a => a.title))
        (ensure_list (jObjGetD (obj_fields llm) "recommendations" .null)) = .ok recs0 ∧
      out.spending_insights = (pySorted (spend_le cbk) fixed0).take 3 ∧
      out.alerts = alerts0.take 2 ∧
      out.recommendations = recs0.take 3 := by
  simp only [validate_and_fix_output] at h
  split at h
  next e heq => exact Except.noConfusion h
  next fixed0 heq =>
      split at h
      next e heq2 => exact Except.noConfusion h
      next alerts0 heq2 =>
          split at h
          next e heq3 => exact Except.noConfusion h
          next recs0 heq3 =>
              have h2 := Except.ok.inj h
              subst h2
              exact ⟨fixed0, alerts0, recs0, heq, heq2, heq3, rfl, rfl, rfl⟩

theorem validate_ok_of (llm : JVal) (cbk : List (String × Candidate)) (fc : String)
    (fixed0 : List FixedPattern) (alerts0 : List FixedAlert) (recs0 : List FixedRec)
    (hs : fix_spending_list cbk fc
      (ensure_list (jObjGetD (obj_fields llm) "spending_insights" .null)) = .ok fixed0)
    (ha : fix_alert_list fc
      (ensure_list (jObjGetD (obj_fields llm) "alerts" .null)) = .ok alerts0)
    (hr : fix_rec_list fc
      (((pySorted (spend_le cbk) fixed0).take 3).map (fun p => p.title) ++
        (alerts0.take 2).map (fun a => a.title))
      (ensure_list (jObjGetD (obj_fields llm) "recommendations" .null)) = .ok recs0) :
    ∃ out, validate_and_fix_output llm cbk fc = .ok out := by
  refine ⟨{ spending_insights := (pySorted (spend_le cbk) fixed0).take 3,
            alerts := alerts0.take 2,
            recommendations := recs0.take 3 }, ?_⟩
  simp only [validate_and_fix_output]
  rw [hs, ha]
  dsimp only
  rw [hr]

/-- A severity field an item may carry without making `_normalize_severity`
raise: absent, falsy, or a string. -/
def sev_field_ok (item : JVal) : Prop :=
  ∀ fields, item = .obj fields →
    (truthy (jObjGetD fields "severity" .null) = false ∨
      ∃ s, jObjGetD fields "severity" .null = .str s)

theorem fix_spending_item_ok (cbk : List (String × Candidate)) (fc : String)
    (item : JVal) (h : sev_field_ok item) :
    ∃ o, fix_spending_item cbk fc item = .ok o := by
  cases item with
  | obj fields =>
      obtain ⟨so, hso⟩ :=
        normalize_severity_ok_of_well_typed _ (h fields rfl)
      cases hk : spending_key_candidate cbk fields with
      | none => exact ⟨none, by simp [fix_spending_item, hk]⟩
      | some kc =>
          obtain ⟨key, cand⟩ := kc
          by_cases hids : (spending_ids cand fields).isEmpty
          · exact ⟨none, by simp [fix_spending_item, hk, hids]⟩
          · exact ⟨some (mk_fixed_pattern fc fields key cand so),
              by simp [fix_spending_item, hk, hids, hso]⟩
  | null => exact ⟨none, rfl⟩
  | bool b => exact ⟨none, rfl⟩
  | num q => exact ⟨none, rfl⟩
  | str s => exact ⟨none, rfl⟩
  | arr l => exact ⟨none, rfl⟩

theorem fix_alert_item_ok (fc : String) (item : JVal) (h : sev_field_ok item) :
    ∃ o, fix_alert_item fc item = .ok o := by
  cases item with
  | obj fields =>
      obtain ⟨so, hso⟩ :=
        normalize_severity_ok_of_well_typed _ (h fields rfl)
      exact ⟨some (mk_fixed_alert fc fields so), by simp [fix_alert_item, hso]⟩
  | null => exact ⟨none, rfl⟩
  | bool b => exact ⟨none, rfl⟩
  | num q => exact ⟨none, rfl⟩
  | str s => exact ⟨none, rfl⟩
  | arr l => exact ⟨none, rfl⟩

theorem fix_spending_list_ok (cbk : List (String × Candidate)) (fc : String) :
    ∀ l : List JVal, (∀ item ∈ l, sev_field_ok item) →
      ∃ ps, fix_spending_list cbk fc l = .ok ps := by
  intro l
  induction l with
  | nil => intro _; exact ⟨[], rfl⟩
  | cons item rest ih =>
      intro h
      obtain ⟨o, ho⟩ := fix_spending_item_ok cbk fc item (h item (by simp))
      obtain ⟨ps, hps⟩ := ih (fun i hi => h i (by simp [hi]))
      cases o with
      | none => exact ⟨ps, by simp [fix_spending_list, ho, hps]⟩
      | some q => exact ⟨q :: ps, by simp [fix_spending_list, ho, hps]⟩

theorem fix_alert_list_ok (fc : String) :
    ∀ l : List JVal, (∀ item ∈ l, sev_field_ok item) →
      ∃ as_, fix_alert_list fc l = .ok as_ := by
  intro l
  induction l with
  | nil => intro _; exact ⟨[], rfl⟩
  | cons item rest ih =>
      intro h
      obtain ⟨o, ho⟩ := fix_alert_item_ok fc item (h item (by simp))
      obtain ⟨as_, has⟩ := ih (fun i hi => h i (by simp [hi]))
      cases o with
      | none => exact ⟨as_, by simp [fix_alert_list, ho, has]⟩
      | some q => exact ⟨q :: as_, by simp [fix_alert_list, ho, has]⟩

/-- A `linked_to_title` an item may carry without making the set-membership
test of line 661 raise: anything hashable, i.e. neither a list nor a dict. -/
def rec_field_ok (item : JVal) : Prop :=
  ∀ fields, item = .obj fields →
    (∀ l, jObjGet fields "linked_to_title" ≠ some (.arr l)) ∧
    (∀ m, jObjGet fields "linked_to_title" ≠ some (.obj m))

theorem fix_rec_item_ok (fc : String) (titles : List String) (item : JVal)
    (h : rec_field_ok item) : ∃ o, fix_rec_item fc titles item = .ok o := by
  cases item with
  | obj fields =>
      obtain ⟨h1, h2⟩ := h fields rfl
      cases hk : jObjGet fields "linked_to_title" with
      | none => exact ⟨none, by simp [fix_rec_item, hk]⟩
      | some v =>
          cases v with
          | arr l => exact absurd hk (h1 l)
          | obj m => exact absurd hk (h2 m)
          | str linked =>
              by_cases hl : linked ∈ titles
              · refine ⟨some {
                  title := orEmpty
                    (clamp_any fc (jObjGetD fields "title" (.str (""))) 52)
                    ("Recommendation"),
                  detail := clamp_any fc
                    (jObjGetD fields "detail"
                      (jObjGetD fields "description" (.str ("")))) 140,
                  linked_to_title := linked }, ?_⟩
                simp [fix_rec_item, hk, hl]
              · exact ⟨none, by simp [fix_rec_item, hk, hl]⟩
          | null => exact ⟨none, by simp [fix_rec_item, hk]⟩
          | bool b => exact ⟨none, by simp [fix_rec_item, hk]⟩
          | num q => exact ⟨none, by simp [fix_rec_item, hk]⟩
  | null => exact ⟨none, rfl⟩
  | bool b => exact ⟨none, rfl⟩
  | num q => exact ⟨none, rfl⟩
  | str s => exact ⟨none, rfl⟩
  | arr l => exact ⟨none, rfl⟩

theorem fix_rec_list_ok (fc : String) (titles : List String) :
    ∀ l : List JVal, (∀ item ∈ l, rec_field_ok item) →
      ∃ rs, fix_rec_list fc titles l = .ok rs := by
  intro l
  induction l with
  | nil => intro _; exact ⟨[], rfl⟩
  | cons item rest ih =>
      intro h
      obtain ⟨o, ho⟩ := fix_rec_item_ok fc titles item (h item (by simp))
      obtain ⟨rs, hrs⟩ := ih (fun i hi => h i (by simp [hi]))
      cases o with
      | none => exact ⟨rs, by simp [fix_rec_list, ho, hrs]⟩
      | some r => exact ⟨r :: rs, by simp [fix_rec_list, ho, hrs]⟩

theorem mem_fix_rec_list (fc : String) (titles : List String) :
    ∀ (l : List JVal) (rs : List FixedRec),
      fix_rec_list fc titles l = .ok rs →
      ∀ r ∈ rs, ∃ item ∈ l, fix_rec_item fc titles item = .ok (some r) := by
  intro l
  induction l with
  | nil =>
      intro rs h r hr
      unfold fix_rec_list at h
      have h2 := Except.ok.inj h
      subst h2
      exact absurd hr (by simp)
  | cons item rest ih =>
      intro rs h r hr
      unfold fix_rec_list at h
      split at h
      next e heq => exact Except.noConfusion h
      next heq =>
          obtain ⟨item2, h2, h3⟩ := ih rs h r hr
          exact ⟨item2, List.mem_cons_of_mem _ h2, h3⟩
      next q heq =>
          split at h
          next e heq2 => exact Except.noConfusion h
          next rs2 heq2 =>
              have hrs := Except.ok.inj h
              subst hrs
              rcases List.mem_cons.mp hr with hrq | hr2
              · subst hrq
                exact ⟨item, List.mem_cons_self _ _, heq⟩
              · obtain ⟨item2, h2, h3⟩ := ih rs2 heq2 r hr2
                exact ⟨item2, List.mem_cons_of_mem _ h2, h3⟩

/-! ## C1: source-key verification and evidence backfill -/

/-- C1: in the validator's final spending-insights list every pattern's
`source_candidate_key` resolves to one of the candidates given to the LLM and
carries 1-3 supporting transaction ids; an item whose key is missing,
non-string, empty or unknown contributes nothing (dropped, never repaired);
an item whose supporting-id field is missing, non-list or empty gets exactly
the matched candidate's own (non-empty, stringified) evidence, cut to 3; and
if that backfilled evidence is empty too, the item is dropped. -/
theorem C1_pattern_reconciliation :
    (∀ (llm : JVal) (cbk : List (String × Candidate)) (fc : String) (out : FixedOutput),
      validate_and_fix_output llm cbk fc = .ok out →
      ∀ p ∈ out.spending_insights,
        (∃ c, lookupCand cbk p.source_candidate_key = some c) ∧
        1 ≤ p.supporting_transaction_ids.length ∧
        p.supporting_transaction_ids.length ≤ 3) ∧
    (∀ (cbk : List (String × Candidate)) (fc : String) (fields : List (String × JVal)),
      ¬ (∃ k c, jObjGet fields "source_candidate_key" = some (.str k) ∧ k ≠ "" ∧
          lookupCand cbk k = some c) →
      fix_spending_item cbk fc (.obj fields) = .ok none) ∧
    (∀ (cbk : List (String × Candidate)) (fc : String) (fields : List (String × JVal))
        (p : FixedPattern) (cand : Candidate),
      fix_spending_item cbk fc (.obj fields) = .ok (some p) →
      lookupCand cbk p.source_candidate_key = some cand →
      (∀ l, jObjGet fields "supporting_transaction_ids" = some (.arr l) → l = []) →
      p.supporting_transaction_ids
        = (cand.supporting_transaction_ids.filter (fun s => s ≠ "")).take 3) ∧
    (∀ (cbk : List (String × Candidate)) (fc : String) (fields : List (String × JVal))
        (k : String) (cand : Candidate),
      spending_key_candidate cbk fields = some (k, cand) →
      (∀ l, jObjGet fields "supporting_transaction_ids" = some (.arr l) → l = []) →
      cand.supporting_transaction_ids.filter (fun s => s ≠ "") = [] →
      fix_spending_item cbk fc (.obj fields) = .ok none) := by
  refine ⟨?_, ?_, ?_, ?_⟩
  · intro llm cbk fc out h p hp
    obtain ⟨fixed0, alerts0, _, hs, ha, _, hout, _, _⟩ :=
      validate_ok_parts llm cbk fc out h
    rw [hout] at hp
    have hp2 : p ∈ fixed0 :=
      (mem_pySorted _ _ _).mp ((List.take_sublist _ _).mem hp)
    obtain ⟨item, hitem, hfix⟩ := mem_fix_spending_list cbk fc _ fixed0 hs p hp2
    obtain ⟨fields, cand, sevOpt, hobj, hkc, hsev, hne, hmk⟩ :=
      fix_spending_item_some cbk fc item p hfix
    obtain ⟨hget, hkne, hlook⟩ := spending_key_candidate_some cbk fields _ cand hkc
    refine ⟨⟨cand, hlook⟩, ?_, ?_⟩
    · have hids : p.supporting_transaction_ids = spending_ids cand fields := by
        rw [hmk]
        rfl
      rw [hids]
      have : spending_ids cand fields ≠ [] := by
        intro hgoal
        rw [hgoal] at hne
        exact absurd hne (by simp)
      exact List.length_pos.mpr this
    · have hids : p.supporting_transaction_ids = spending_ids cand fields := by
        rw [hmk]
        rfl
      rw [hids]
      exact spending_ids_le_three cand fields
  · intro cbk fc fields hno
    cases hk : spending_key_candidate cbk fields with
    | none => simp [fix_spending_item, hk]
    | some kc =>
        obtain ⟨k, c⟩ := kc
        obtain ⟨hget, hkne, hlook⟩ := spending_key_candidate_some cbk fields k c hk
        exact absurd ⟨k, c, hget, hkne, hlook⟩ hno
  · intro cbk fc fields p cand hfix hlook hmiss
    obtain ⟨fields2, cand2, sevOpt, hobj, hkc, hsev, hne, hmk⟩ :=
      fix_spending_item_some cbk fc _ p hfix
    have hf : fields2 = fields := (JVal.obj.inj hobj).symm
    subst hf
    obtain ⟨_, _, hlook2⟩ := spending_key_candidate_some cbk fields2 _ cand2 hkc
    have hcand : cand2 = cand := Option.some.inj (hlook2.symm.trans hlook)
    subst hcand
    have hids : p.supporting_transaction_ids = spending_ids cand2 fields2 := by
      rw [hmk]
      rfl
    rw [hids]
    exact spending_ids_backfill cand2 fields2 hmiss
  · intro cbk fc fields k cand hk hmiss hempty
    have hids : spending_ids cand fields = [] := by
      rw [spending_ids_backfill cand fields hmiss, hempty]
      rfl
    simp [fix_spending_item, hk, hids]

/-- A well-formed candidate used by the validator fixtures. -/
def exVCand : Candidate :=
  { candidate_type := "merchant_frequency", key := "k1", metric_label := "L",
    metric_value := "V", count := 5, total := 60, share_of_expenses := 1,
    severity_score := 1, supporting_transaction_ids := [("t1"), ("t2")] }

/-- A candidate with no usable evidence ids. -/
def exVCand2 : Candidate :=
  { candidate_type := "merchant_frequency", key := "k2", metric_label := "L",
    metric_value := "V", count := 5, total := 60, share_of_expenses := 1,
    severity_score := 1, supporting_transaction_ids := [] }

/-- A fully well-formed LLM spending item. -/
def exGoodItem : JVal :=
  .obj [("source_candidate_key", .str ("k1")), ("title", .str ("T")),
    ("detail", .str ("D")), ("severity", .str ("info")),
    ("metric", .obj [("label", .str ("L2")), ("value", .str ("V2"))]),
    ("supporting_transaction_ids", .arr [.str ("t1")])]

def exLLM1 : JVal :=
  .obj [("spending_insights", .arr [exGoodItem]), ("alerts", .arr []),
    ("recommendations", .arr [])]

def exPat1 : FixedPattern :=
  { title := "T", detail := "D", severity := "info", metric_label := "L2",
    metric_value := "V2", supporting_transaction_ids := [("t1")],
    source_candidate_key := "k1" }

def exOut1 : FixedOutput :=
  { spending_insights := [exPat1], alerts := [], recommendations := [] }

/-- An item with no source key at all. -/
def exNoKeyFields : List (String × JVal) := [("title", .str ("x"))]

/-- An item with a valid key but no supporting-id field. -/
def exBackFields : List (String × JVal) :=
  [("source_candidate_key", .str ("k1")), ("severity", .str ("info"))]

/-- The pattern the validator repairs `exBackFields` into. -/
def exPatB : FixedPattern :=
  { title := "L", detail := "V", severity := "info", metric_label := "L",
    metric_value := "V", supporting_transaction_ids := [("t1"), ("t2")],
    source_candidate_key := "k1" }

/-- An item whose matched candidate has no evidence either. -/
def exEmptyEvFields : List (String × JVal) :=
  [("source_candidate_key", .str ("k2")), ("severity", .str ("info"))]

/-- C1 (witness): `C1_pattern_reconciliation` exercised on concrete runs —
a good item survives with its key and one id, a key-less item is dropped, a
missing id field is backfilled from the candidate evidence, and an item whose
candidate has no evidence either is dropped. -/
theorem C1_pattern_reconciliation_witness :
    validate_and_fix_output exLLM1 (candidate_by_key [exVCand]) ("MYR") = .ok exOut1 ∧
    ((∃ c, lookupCand (candidate_by_key [exVCand]) exPat1.source_candidate_key = some c) ∧
      1 ≤ exPat1.supporting_transaction_ids.length ∧
      exPat1.supporting_transaction_ids.length ≤ 3) ∧
    fix_spending_item (candidate_by_key [exVCand]) ("MYR") (.obj exNoKeyFields)
      = .ok none ∧
    exPatB.supporting_transaction_ids
      = (exVCand.supporting_transaction_ids.filter (fun s => s ≠ "")).take 3 ∧
    fix_spending_item (candidate_by_key [exVCand2]) ("MYR") (.obj exEmptyEvFields)
      = .ok none :=
  ⟨rfl,
   C1_pattern_reconciliation.1 exLLM1 (candidate_by_key [exVCand]) ("MYR") exOut1 rfl
     exPat1 (List.mem_singleton.mpr rfl),
   C1_pattern_reconciliation.2.1 (candidate_by_key [exVCand]) ("MYR") exNoKeyFields
     (fun ⟨_k, _c, hg, _, _⟩ => Option.noConfusion hg),
   C1_pattern_reconciliation.2.2.1 (candidate_by_key [exVCand]) ("MYR") exBackFields
     exPatB exVCand rfl rfl (fun _l h => Option.noConfusion h),
   C1_pattern_reconciliation.2.2.2 (candidate_by_key [exVCand2]) ("MYR") exEmptyEvFields
     ("k2") exVCand2 rfl (fun _l h => Option.noConfusion h) rfl⟩

/-! ## C10: structural safety of the validator -/

theorem orEmpty_no_dollar (a b : String) (ha : hasDollar a = false)
    (hb : hasDollar b = false) : hasDollar (orEmpty a b) = false := by
  unfold orEmpty
  split_ifs <;> assumption

theorem orEmpty_cases (a b : String) : orEmpty a b = a ∨ orEmpty a b = b := by
  unfold orEmpty
  split_ifs <;> simp

theorem clamp_any_no_dollar (fc : String) (v : JVal) (n : Nat)
    (hfc : hasDollar fc = false) : hasDollar (clamp_any fc v n) = false :=
  clamp_no_dollar fc _ n hfc

theorem spending_metric_no_dollar (fc : String) (cand : Candidate)
    (fields : List (String × JVal)) (hfc : hasDollar fc = false) :
    hasDollar (spending_metric fc cand fields).1 = false ∧
      hasDollar (spending_metric fc cand fields).2 = false := by
  unfold spending_metric
  constructor <;> dsimp only <;> split_ifs <;>
    exact clamp_no_dollar fc _ _ hfc


theorem mk_fixed_pattern_title (fc : String) (fields : List (String × JVal))
    (key : String) (cand : Candidate) (sevOpt : Option String) :
    (mk_fixed_pattern fc fields key cand sevOpt).title
      = orEmpty (clamp_any fc (jObjGetD fields "title" (.str (""))) 52)
        (orEmpty (clamp_str fc (spending_metric fc cand fields).1 52)
          ("Spending insight")) := by
  simp only [mk_fixed_pattern]

theorem mk_fixed_pattern_detail (fc : String) (fields : List (String × JVal))
    (key : String) (cand : Candidate) (sevOpt : Option String) :
    (mk_fixed_pattern fc fields key cand sevOpt).detail
      = orEmpty (clamp_any fc (jObjGetD fields "detail" (.str (""))) 140)
        (orEmpty (clamp_str fc (spending_metric fc cand fields).2 140)
          ("See statement details.")) := by
  simp only [mk_fixed_pattern]

theorem mk_fixed_pattern_severity (fc : String) (fields : List (String × JVal))
    (key : String) (cand : Candidate) (sevOpt : Option String) :
    (mk_fixed_pattern fc fields key cand sevOpt).severity
      = sevOpt.getD ("warning") := by
  simp only [mk_fixed_pattern]

theorem mk_fixed_pattern_metric_label (fc : String) (fields : List (String × JVal))
    (key : String) (cand : Candidate) (sevOpt : Option String) :
    (mk_fixed_pattern fc fields key cand sevOpt).metric_label
      = (spending_metric fc cand fields).1 := by
  simp only [mk_fixed_pattern]

theorem mk_fixed_pattern_metric_value (fc : String) (fields : List (String × JVal))
    (key : String) (cand : Candidate) (sevOpt : Option String) :
    (mk_fixed_pattern fc fields key cand sevOpt).metric_value
      = (spending_metric fc cand fields).2 := by
  simp only [mk_fixed_pattern]

theorem mk_fixed_alert_title (fc : String) (fields : List (String × JVal))
    (sevOpt : Option String) :
    (mk_fixed_alert fc fields sevOpt).title
      = orEmpty (clamp_any fc (jObjGetD fields "title" (.str (""))) 52) ("Alert") := by
  simp only [mk_fixed_alert]

theorem mk_fixed_alert_detail (fc : String) (fields : List (String × JVal))
    (sevOpt : Option String) :
    (mk_fixed_alert fc fields sevOpt).detail
      = clamp_any fc
        (jObjGetD fields "detail" (jObjGetD fields "description" (.str ("")))) 140 := by
  simp only [mk_fixed_alert]

theorem mk_fixed_alert_severity (fc : String) (fields : List (String × JVal))
    (sevOpt : Option String) :
    (mk_fixed_alert fc fields sevOpt).severity = sevOpt.getD ("warning") := by
  simp only [mk_fixed_alert]

theorem mk_fixed_alert_metric_label (fc : String) (fields : List (String × JVal))
    (sevOpt : Option String) :
    (mk_fixed_alert fc fields sevOpt).metric_label
      = clamp_any fc (jObjGetD (alert_metric_fields fields) "label" (.str (""))) 64 := by
  simp only [mk_fixed_alert]

theorem mk_fixed_alert_metric_value (fc : String) (fields : List (String × JVal))
    (sevOpt : Option String) :
    (mk_fixed_alert fc fields sevOpt).metric_value
      = clamp_any fc (jObjGetD (alert_metric_fields fields) "value" (.str (""))) 64 := by
  simp only [mk_fixed_alert]

theorem mk_fixed_alert_ids (fc : String) (fields : List (String × JVal))
    (sevOpt : Option String) :
    (mk_fixed_alert fc fields sevOpt).supporting_transaction_ids
      = ((((ensure_list (jObjGetD fields "supporting_transaction_ids" .null)).filter
          truthy).map jStr).filter (fun s => s ≠ "")).take 3 := by
  simp only [mk_fixed_alert]

theorem spending_insight_ne : ("Spending insight" : String) ≠ "" := by decide

theorem see_details_ne : ("See statement details." : String) ≠ "" := by decide

theorem alert_ne : ("Alert" : String) ≠ "" := by decide

theorem spending_insight_no_dollar : hasDollar ("Spending insight") = false := by decide

theorem see_details_no_dollar : hasDollar ("See statement details.") = false := by decide

theorem alert_no_dollar : hasDollar ("Alert") = false := by decide

theorem spending_insight_len : pyLen ("Spending insight") ≤ 52 := by decide

theorem see_details_len : pyLen ("See statement details.") ≤ 140 := by decide

theorem alert_len : pyLen ("Alert") ≤ 52 := by decide

theorem getD_severity_canonical (v : JVal) (sevOpt : Option String)
    (hsev : normalize_severity v = .ok sevOpt) :
    sevOpt.getD ("warning") = "info" ∨ sevOpt.getD ("warning") = "warning" ∨
      sevOpt.getD ("warning") = "critical" := by
  cases sevOpt with
  | none => simp
  | some r => simpa using normalize_severity_canonical v r hsev

theorem mk_fixed_pattern_shape (fc : String) (fields : List (String × JVal))
    (key : String) (cand : Candidate) (sevOpt : Option String)
    (hsev : normalize_severity (jObjGetD fields "severity" .null) = .ok sevOpt) :
    (mk_fixed_pattern fc fields key cand sevOpt).title ≠ "" ∧
    (mk_fixed_pattern fc fields key cand sevOpt).detail ≠ "" ∧
    ((mk_fixed_pattern fc fields key cand sevOpt).severity = "info" ∨
      (mk_fixed_pattern fc fields key cand sevOpt).severity = "warning" ∨
      (mk_fixed_pattern fc fields key cand sevOpt).severity = "critical") ∧
    pyLen (mk_fixed_pattern fc fields key cand sevOpt).title ≤ 52 ∧
    pyLen (mk_fixed_pattern fc fields key cand sevOpt).detail ≤ 140 ∧
    (hasDollar fc = false →
      hasDollar (mk_fixed_pattern fc fields key cand sevOpt).title = false ∧
      hasDollar (mk_fixed_pattern fc fields key cand sevOpt).detail = false ∧
      hasDollar (mk_fixed_pattern fc fields key cand sevOpt).metric_label = false ∧
      hasDollar (mk_fixed_pattern fc fields key cand sevOpt).metric_value = false) := by
  rw [mk_fixed_pattern_title, mk_fixed_pattern_detail, mk_fixed_pattern_severity,
    mk_fixed_pattern_metric_label, mk_fixed_pattern_metric_value]
  refine ⟨?_, ?_, ?_, ?_, ?_, ?_⟩
  · exact orEmpty_ne_empty _ _ (orEmpty_ne_empty _ _ spending_insight_ne)
  · exact orEmpty_ne_empty _ _ (orEmpty_ne_empty _ _ see_details_ne)
  · exact getD_severity_canonical _ sevOpt hsev
  · rcases orEmpty_cases (clamp_any fc (jObjGetD fields "title" (.str (""))) 52)
      (orEmpty (clamp_str fc (spending_metric fc cand fields).1 52)
        ("Spending insight")) with he | he <;> rw [he]
    · exact clamp_len _ _ _ (by omega)
    · rcases orEmpty_cases (clamp_str fc (spending_metric fc cand fields).1 52)
        ("Spending insight") with he2 | he2 <;> rw [he2]
      · exact clamp_len _ _ _ (by omega)
      · exact spending_insight_len
  · rcases orEmpty_cases (clamp_any fc (jObjGetD fields "detail" (.str (""))) 140)
      (orEmpty (clamp_str fc (spending_metric fc cand fields).2 140)
        ("See statement details.")) with he | he <;> rw [he]
    · exact clamp_len _ _ _ (by omega)
    · rcases orEmpty_cases (clamp_str fc (spending_metric fc cand fields).2 140)
        ("See statement details.") with he2 | he2 <;> rw [he2]
      · exact clamp_len _ _ _ (by omega)
      · exact see_details_len
  · intro hfc
    refine ⟨?_, ?_, (spending_metric_no_dollar fc cand fields hfc).1,
      (spending_metric_no_dollar fc cand fields hfc).2⟩
    · exact orEmpty_no_dollar _ _ (clamp_any_no_dollar fc _ _ hfc)
        (orEmpty_no_dollar _ _ (clamp_no_dollar fc _ _ hfc) spending_insight_no_dollar)
    · exact orEmpty_no_dollar _ _ (clamp_any_no_dollar fc _ _ hfc)
        (orEmpty_no_dollar _ _ (clamp_no_dollar fc _ _ hfc) see_details_no_dollar)

theorem mk_fixed_alert_shape (fc : String) (fields : List (String × JVal))
    (sevOpt : Option String)
    (hsev : normalize_severity (jObjGetD fields "severity" .null) = .ok sevOpt) :
    (mk_fixed_alert fc fields sevOpt).title ≠ "" ∧
    ((mk_fixed_alert fc fields sevOpt).severity = "info" ∨
      (mk_fixed_alert fc fields sevOpt).severity = "warning" ∨
      (mk_fixed_alert fc fields sevOpt).severity = "critical") ∧
    pyLen (mk_fixed_alert fc fields sevOpt).title ≤ 52 ∧
    pyLen (mk_fixed_alert fc fields sevOpt).detail ≤ 140 ∧
    (mk_fixed_alert fc fields sevOpt).supporting_transaction_ids.length ≤ 3 ∧
    (hasDollar fc = false →
      hasDollar (mk_fixed_alert fc fields sevOpt).title = false ∧
      hasDollar (mk_fixed_alert fc fields sevOpt).detail = false ∧
      hasDollar (mk_fixed_alert fc fields sevOpt).metric_label = false ∧
      hasDollar (mk_fixed_alert fc fields sevOpt).metric_value = false) := by
  rw [mk_fixed_alert_title, mk_fixed_alert_detail, mk_fixed_alert_severity,
    mk_fixed_alert_metric_label, mk_fixed_alert_metric_value, mk_fixed_alert_ids]
  refine ⟨?_, ?_, ?_, ?_, ?_, ?_⟩
  · exact orEmpty_ne_empty _ _ alert_ne
  · exact getD_severity_canonical _ sevOpt hsev
  · rcases orEmpty_cases (clamp_any fc (jObjGetD fields "title" (.str (""))) 52)
      ("Alert") with he | he <;> rw [he]
    · exact clamp_len _ _ _ (by omega)
    · exact alert_len
  · exact clamp_len _ _ _ (by omega)
  · exact List.length_take_le _ _
  · intro hfc
    refine ⟨?_, clamp_any_no_dollar fc _ _ hfc, clamp_any_no_dollar fc _ _ hfc,
      clamp_any_no_dollar fc _ _ hfc⟩
    exact orEmpty_no_dollar _ _ (clamp_any_no_dollar fc _ _ hfc) alert_no_dollar

/-- An LLM output whose spending item carries a truthy non-string severity. -/
def exBadSevLLM : JVal :=
  .obj [("spending_insights", .arr [.obj [
    ("source_candidate_key", .str ("k1")),
    ("severity", .num 1),
    ("supporting_transaction_ids", .arr [.str ("t1")])]])]

/-- An LLM output whose alert carries a supporting id containing a dollar
sign. -/
def exDollarLLM : JVal :=
  .obj [("alerts", .arr [.obj [
    ("supporting_transaction_ids", .arr [.str ("$5")])]])]

/-- A recommendation item whose `linked_to_title` is a list, which the
set-membership test of line 661 cannot hash. -/
def exBadRecLLM : JVal :=
  .obj [("recommendations", .arr [.obj [("linked_to_title", .arr [])]])]

/-- C10 (counterexample): the validator is not total — an item whose severity
is the number 1 makes `_normalize_severity` call `.lower()` on a non-string
and the `AttributeError` escapes `_validate_and_fix_output`, and a
recommendation whose `linked_to_title` is a list makes the set-membership
test `linked not in valid_titles` raise `TypeError` — and it is not
dollar-free either: an alert's supporting transaction id `"$5"` is copied into
the output verbatim. -/
theorem C10_counterexample :
    validate_and_fix_output exBadSevLLM (candidate_by_key [exVCand]) ("MYR")
      = .error ("AttributeError: lower") ∧
    validate_and_fix_output exBadRecLLM [] ("MYR")
      = .error ("TypeError: unhashable type: list") ∧
    (validate_and_fix_output exDollarLLM [] ("MYR")).toOption.map
      (fun o => o.alerts.map (fun a => a.supporting_transaction_ids))
      = some [[("$5")]] ∧
    hasDollar ("$5") = true :=
  ⟨rfl, rfl, by decide, by decide⟩

/-- C10 (amended): the validator returns without raising for any input whose
spending/alert items carry absent, falsy or string severities and whose
recommendation items carry no unhashable (list or dict) `linked_to_title` —
a truthy non-string severity raises `AttributeError` and an unhashable
`linked_to_title` raises `TypeError` at the set-membership test, so totality
holds only under those typing restrictions; every success has at most 3
spending insights, 2 alerts and 3 recommendations; every spending insight has
a non-empty title and detail, a canonical severity and 1-3 supporting ids;
and — when the currency code is dollar-free — every title, detail and metric
string of the output is dollar-free, while supporting transaction ids (and
the echoed candidate key) are copied verbatim and are exempt from
scrubbing. -/
theorem C10_validator_safety :
    (∀ (llm : JVal) (cbk : List (String × Candidate)) (fc : String),
      (∀ item ∈ ensure_list (jObjGetD (obj_fields llm) "spending_insights" .null),
        sev_field_ok item) →
      (∀ item ∈ ensure_list (jObjGetD (obj_fields llm) "alerts" .null),
        sev_field_ok item) →
      (∀ item ∈ ensure_list (jObjGetD (obj_fields llm) "recommendations" .null),
        rec_field_ok item) →
      ∃ out, validate_and_fix_output llm cbk fc = .ok out) ∧
    (∀ (llm : JVal) (cbk : List (String × Candidate)) (fc : String) (out : FixedOutput),
      validate_and_fix_output llm cbk fc = .ok out →
      out.spending_insights.length ≤ 3 ∧ out.alerts.length ≤ 2 ∧
      out.recommendations.length ≤ 3 ∧
      (∀ p ∈ out.spending_insights,
        p.title ≠ "" ∧ p.detail ≠ "" ∧
        (p.severity = "info" ∨ p.severity = "warning" ∨ p.severity = "critical") ∧
        1 ≤ p.supporting_transaction_ids.length ∧
        p.supporting_transaction_ids.length ≤ 3) ∧
      (hasDollar fc = false →
        (∀ p ∈ out.spending_insights,
          hasDollar p.title = false ∧ hasDollar p.detail = false ∧
          hasDollar p.metric_label = false ∧ hasDollar p.metric_value = false) ∧
        (∀ a ∈ out.alerts,
          hasDollar a.title = false ∧ hasDollar a.detail = false ∧
          hasDollar a.metric_label = false ∧ hasDollar a.metric_value = false) ∧
        (∀ r ∈ out.recommendations,
          hasDollar r.title = false ∧ hasDollar r.detail = false))) := by
  constructor
  · intro llm cbk fc hsp hal hrc
    obtain ⟨fixed0, hs⟩ := fix_spending_list_ok cbk fc _ hsp
    obtain ⟨alerts0, ha⟩ := fix_alert_list_ok fc _ hal
    obtain ⟨recs0, hr⟩ := fix_rec_list_ok fc
      (((pySorted (spend_le cbk) fixed0).take 3).map (fun p => p.title) ++
        (alerts0.take 2).map (fun a => a.title)) _ hrc
    exact validate_ok_of llm cbk fc fixed0 alerts0 recs0 hs ha hr
  · intro llm cbk fc out h
    obtain ⟨fixed0, alerts0, recs0, hs, ha, hr, hout, hout2, hout3⟩ :=
      validate_ok_parts llm cbk fc out h
    have hpat : ∀ p ∈ out.spending_insights,
        ∃ fields cand sevOpt,
          normalize_severity (jObjGetD fields "severity" .null) = .ok sevOpt ∧
          (spending_ids cand fields).isEmpty = false ∧
          p = mk_fixed_pattern fc fields p.source_candidate_key cand sevOpt := by
      intro p hp
      rw [hout] at hp
      have hp2 : p ∈ fixed0 :=
        (mem_pySorted _ _ _).mp ((List.take_sublist _ _).mem hp)
      obtain ⟨item, hitem, hfix⟩ := mem_fix_spending_list cbk fc _ fixed0 hs p hp2
      obtain ⟨fields, cand, sevOpt, hobj, hkc, hsev, hne, hmk⟩ :=
        fix_spending_item_some cbk fc item p hfix
      exact ⟨fields, cand, sevOpt, hsev, hne, hmk⟩
    have halrt : ∀ a ∈ out.alerts,
        ∃ fields sevOpt,
          normalize_severity (jObjGetD fields "severity" .null) = .ok sevOpt ∧
          a = mk_fixed_alert fc fields sevOpt := by
      intro a ha2
      rw [hout2] at ha2
      have ha3 : a ∈ alerts0 := (List.take_sublist _ _).mem ha2
      obtain ⟨item, hitem, hfix⟩ := mem_fix_alert_list fc _ alerts0 ha a ha3
      obtain ⟨fields, sevOpt, hobj, hsev, hmk⟩ := fix_alert_item_some fc item a hfix
      exact ⟨fields, sevOpt, hsev, hmk⟩
    have hrec : ∀ r ∈ out.recommendations,
        ∃ fields,
          r.title = orEmpty (clamp_any fc (jObjGetD fields "title" (.str (""))) 52)
            ("Recommendation") ∧
          r.detail = clamp_any fc
            (jObjGetD fields "detail" (jObjGetD fields "description" (.str ("")))) 140 := by
      intro r hr2
      rw [hout3] at hr2
      have hr3 := (List.take_sublist _ _).mem hr2
      obtain ⟨item, hitem, heq⟩ := mem_fix_rec_list fc _ _ recs0 hr r hr3
      obtain ⟨fields, hobj, hlink, ht, hd⟩ := fix_rec_item_some fc _ item r heq
      exact ⟨fields, ht, hd⟩
    refine ⟨?_, ?_, ?_, ?_, ?_⟩
    · rw [hout]; exact List.length_take_le _ _
    · rw [hout2]; exact List.length_take_le _ _
    · rw [hout3]; exact List.length_take_le _ _
    · intro p hp
      obtain ⟨fields, cand, sevOpt, hsev, hne, hmk⟩ := hpat p hp
      obtain ⟨h1, h2, h3, _, _, _⟩ :=
        mk_fixed_pattern_shape fc fields p.source_candidate_key cand sevOpt hsev
      refine ⟨hmk ▸ h1, hmk ▸ h2, hmk ▸ h3, ?_, ?_⟩
      · have hids : p.supporting_transaction_ids = spending_ids cand fields := by
          rw [hmk]
          rfl
        rw [hids]
        have hne2 : spending_ids cand fields ≠ [] := by
          intro hgoal
          rw [hgoal] at hne
          exact absurd hne (by simp)
        exact List.length_pos.mpr hne2
      · have hids : p.supporting_transaction_ids = spending_ids cand fields := by
          rw [hmk]
          rfl
        rw [hids]
        exact spending_ids_le_three cand fields
    · intro hfc
      refine ⟨?_, ?_, ?_⟩
      · intro p hp
        obtain ⟨fields, cand, sevOpt, hsev, hne, hmk⟩ := hpat p hp
        obtain ⟨_, _, _, _, _, hdollar⟩ :=
          mk_fixed_pattern_shape fc fields p.source_candidate_key cand sevOpt hsev
        obtain ⟨d1, d2, d3, d4⟩ := hdollar hfc
        exact ⟨hmk ▸ d1, hmk ▸ d2, hmk ▸ d3, hmk ▸ d4⟩
      · intro a ha2
        obtain ⟨fields, sevOpt, hsev, hmk⟩ := halrt a ha2
        obtain ⟨_, _, _, _, _, hdollar⟩ := mk_fixed_alert_shape fc fields sevOpt hsev
        obtain ⟨d1, d2, d3, d4⟩ := hdollar hfc
        exact ⟨hmk ▸ d1, hmk ▸ d2, hmk ▸ d3, hmk ▸ d4⟩
      · intro r hr
        obtain ⟨fields, ht, hd⟩ := hrec r hr
        constructor
        · rw [ht]
          exact orEmpty_no_dollar _ _ (clamp_any_no_dollar fc _ _ hfc) (by decide)
        · rw [hd]
          exact clamp_any_no_dollar fc _ _ hfc

/-- C10 witness: on the concrete well-typed LLM output `exLLM1` the validator
succeeds, and its concrete result `exOut1` satisfies the caps and the shape
facts for its single pattern. -/
theorem C10_validator_safety_witness :
    (∃ out, validate_and_fix_output exLLM1 (candidate_by_key [exVCand]) ("MYR")
      = .ok out) ∧
    exOut1.spending_insights.length ≤ 3 ∧ exOut1.alerts.length ≤ 2 ∧
    exOut1.recommendations.length ≤ 3 ∧
    exPat1.title ≠ "" ∧
    (exPat1.severity = "info" ∨ exPat1.severity = "warning" ∨
      exPat1.severity = "critical") ∧
    hasDollar exPat1.title = false := by
  have H2 := C10_validator_safety.2 exLLM1 (candidate_by_key [exVCand]) ("MYR")
    exOut1 rfl
  have hmem : exPat1 ∈ exOut1.spending_insights := List.mem_singleton.mpr rfl
  have hp := H2.2.2.2.1 exPat1 hmem
  have hd := (H2.2.2.2.2 (by decide)).1 exPat1 hmem
  refine ⟨?_, H2.1, H2.2.1, H2.2.2.1, hp.1, hp.2.2.1, hd.1⟩
  refine C10_validator_safety.1 exLLM1 (candidate_by_key [exVCand]) ("MYR") ?_ ?_ ?_
  · intro item hitem
    have h1 : item = exGoodItem := List.mem_singleton.mp hitem
    subst h1
    intro fields hf
    have h2 : fields = obj_fields exGoodItem := by
      rw [hf]
      exact rfl
    subst h2
    exact Or.inr ⟨"info", rfl⟩
  · intro item hitem
    exact absurd hitem (List.not_mem_nil item)
  · intro item hitem
    exact absurd hitem (List.not_mem_nil item)

theorem scrub_multi (s : String) :
    (scrub_dollar ("MULTI") s).toList = s.toList.filter (fun c => c ≠ '$') := by
  by_cases h0 : hasDollar s = true
  · have h1 : scrub_dollar ("MULTI") s
        = (s.toList.filter (fun c => c ≠ '$')).asString := by
      unfold scrub_dollar
      rw [if_neg (by simp [h0]), if_neg (by simp)]
    rw [h1, toList_asString]
  · have h0f : hasDollar s = false := by simpa using h0
    have h3 : '$' ∉ s.toList := (hasDollar_false_iff s).mp h0f
    rw [scrub_id ("MULTI") s h0f]
    refine (List.filter_eq_self.mpr ?_).symm
    intro a ha
    exact decide_eq_true (fun heq => h3 (heq ▸ ha))

/-- C8 (amended): `clamp_str` output never exceeds the limit (for any
positive limit), ends in the ellipsis character when the scrubbed+stripped
string was over the limit; `scrub_dollar` rewrites `$123.45` to `MYR 123.45`
for a detected currency and deletes only the dollar signs under the `MULTI`
sentinel; and every title/detail in a validator success obeys the 52/140 caps
and is dollar-free whenever the currency code is — the scrub covers the
clamped fields (titles, details, metric strings) only, not the supporting
transaction ids. -/
theorem C8_clamp_and_scrub :
    (∀ (fc s : String) (n : Nat), 1 ≤ n → pyLen (clamp_str fc s n) ≤ n) ∧
    (∀ (fc s : String) (n : Nat), n < pyLen (pyStrip (scrub_dollar fc s)) →
      ∃ t, clamp_str fc s n = t ++ ("…")) ∧
    scrub_dollar ("MYR") ("$123.45") = ("MYR 123.45") ∧
    (∀ s, (scrub_dollar ("MULTI") s).toList = s.toList.filter (fun c => c ≠ '$')) ∧
    (∀ (llm : JVal) (cbk : List (String × Candidate)) (fc : String) (out : FixedOutput),
      validate_and_fix_output llm cbk fc = .ok out →
      (∀ p ∈ out.spending_insights, pyLen p.title ≤ 52 ∧ pyLen p.detail ≤ 140 ∧
        (hasDollar fc = false →
          hasDollar p.title = false ∧ hasDollar p.detail = false)) ∧
      (∀ a ∈ out.alerts, pyLen a.title ≤ 52 ∧ pyLen a.detail ≤ 140 ∧
        (hasDollar fc = false →
          hasDollar a.title = false ∧ hasDollar a.detail = false)) ∧
      (∀ r ∈ out.recommendations, pyLen r.title ≤ 52 ∧ pyLen r.detail ≤ 140 ∧
        (hasDollar fc = false →
          hasDollar r.title = false ∧ hasDollar r.detail = false))) := by
  refine ⟨clamp_len, clamp_ellipsis, by decide, scrub_multi, ?_⟩
  intro llm cbk fc out h
  obtain ⟨fixed0, alerts0, recs0, hs, ha, hrl, hout, hout2, hout3⟩ :=
    validate_ok_parts llm cbk fc out h
  refine ⟨?_, ?_, ?_⟩
  · intro p hp
    rw [hout] at hp
    have hp2 : p ∈ fixed0 :=
      (mem_pySorted _ _ _).mp ((List.take_sublist _ _).mem hp)
    obtain ⟨item, hitem, hfix⟩ := mem_fix_spending_list cbk fc _ fixed0 hs p hp2
    obtain ⟨fields, cand, sevOpt, hobj, hkc, hsev, hne, hmk⟩ :=
      fix_spending_item_some cbk fc item p hfix
    obtain ⟨_, _, _, h4, h5, hdol⟩ :=
      mk_fixed_pattern_shape fc fields p.source_candidate_key cand sevOpt hsev
    refine ⟨hmk ▸ h4, hmk ▸ h5, fun hfc => ?_⟩
    obtain ⟨d1, d2, _, _⟩ := hdol hfc
    exact ⟨hmk ▸ d1, hmk ▸ d2⟩
  · intro a ha2
    rw [hout2] at ha2
    have ha3 : a ∈ alerts0 := (List.take_sublist _ _).mem ha2
    obtain ⟨item, hitem, hfix⟩ := mem_fix_alert_list fc _ alerts0 ha a ha3
    obtain ⟨fields, sevOpt, hobj, hsev, hmk⟩ := fix_alert_item_some fc item a hfix
    obtain ⟨_, _, h3, h4, _, hdol⟩ := mk_fixed_alert_shape fc fields sevOpt hsev
    refine ⟨hmk ▸ h3, hmk ▸ h4, fun hfc => ?_⟩
    obtain ⟨d1, d2, _, _⟩ := hdol hfc
    exact ⟨hmk ▸ d1, hmk ▸ d2⟩
  · intro r hr
    rw [hout3] at hr
    have hr2 := (List.take_sublist _ _).mem hr
    obtain ⟨item, hitem, heq⟩ := mem_fix_rec_list fc _ _ recs0 hrl r hr2
    obtain ⟨fields, hobj, hlink, ht, hd⟩ := fix_rec_item_some fc _ item r heq
    refine ⟨?_, ?_, fun hfc => ⟨?_, ?_⟩⟩
    · rcases orEmpty_cases (clamp_any fc (jObjGetD fields "title" (.str (""))) 52)
        ("Recommendation") with hcase | hcase
      · rw [ht, hcase]
        exact clamp_len fc _ 52 (by norm_num)
      · rw [ht, hcase]
        decide
    · rw [hd]
      exact clamp_len fc _ 140 (by norm_num)
    · rw [ht]
      exact orEmpty_no_dollar _ _ (clamp_any_no_dollar fc _ _ hfc) (by decide)
    · rw [hd]
      exact clamp_any_no_dollar fc _ _ hfc

/-- C8 witness: the clamp bound, an ellipsis-producing truncation, the MULTI
dollar deletion and the in-output caps, all at concrete inputs. -/
theorem C8_clamp_and_scrub_witness :
    pyLen (clamp_str ("MYR") ("$123.45") 5) ≤ 5 ∧
    (∃ t, clamp_str ("") ("abcdefgh") 5 = t ++ ("…")) ∧
    (scrub_dollar ("MULTI") ("a$b")).toList
      = ("a$b").toList.filter (fun c => c ≠ '$') ∧
    (pyLen exPat1.title ≤ 52 ∧ pyLen exPat1.detail ≤ 140 ∧
      hasDollar exPat1.title = false ∧ hasDollar exPat1.detail = false) := by
  refine ⟨C8_clamp_and_scrub.1 ("MYR") ("$123.45") 5 (by norm_num),
    C8_clamp_and_scrub.2.1 ("") ("abcdefgh") 5 (by decide),
    C8_clamp_and_scrub.2.2.2.1 ("a$b"), ?_⟩
  have hp := (C8_clamp_and_scrub.2.2.2.2 exLLM1 (candidate_by_key [exVCand]) ("MYR")
    exOut1 rfl).1 exPat1 (List.mem_singleton.mpr rfl)
  obtain ⟨d1, d2⟩ := hp.2.2 (by decide)
  exact ⟨hp.1, hp.2.1, d1, d2⟩

/-- C8 (counterexample): `supporting_transaction_ids` is a string field of the
validator's output that is never scrubbed, so a `$` inside an id survives to a
successful result. -/
theorem C8_counterexample :
    (validate_and_fix_output exDollarLLM [] ("MYR")).toOption.map
      (fun o => o.alerts.map
        (fun a => a.supporting_transaction_ids.map hasDollar))
      = some [[true]] := by
  decide

theorem asString_toList (s : String) : s.toList.asString = s := rfl

theorem strTake_eq_self (n : Nat) (s : String) (h : pyLen s ≤ n) :
    strTake n s = s := by
  rw [strTake, List.take_of_length_le h, asString_toList]

theorem mk_fixed_pattern_key (fc : String) (fields : List (String × JVal))
    (key : String) (cand : Candidate) (sevOpt : Option String) :
    (mk_fixed_pattern fc fields key cand sevOpt).source_candidate_key = key := by
  simp only [mk_fixed_pattern]

/-- Round trip of a list of non-empty strings through the JSON id scrubbing
`[str(x) for x in ids if x]`. -/
theorem strlist_roundtrip (xs : List String) (h : ∀ i ∈ xs, i ≠ "") :
    (((xs.map (fun s => JVal.str s)).filter truthy).map jStr).filter
      (fun s => s ≠ "") = xs := by
  have h1 : (xs.map (fun s => JVal.str s)).filter truthy
      = xs.map (fun s => JVal.str s) := by
    refine List.filter_eq_self.mpr ?_
    intro a ha
    obtain ⟨i, hi, rfl⟩ := List.mem_map.mp ha
    exact decide_eq_true (h i hi)
  have h2 : (xs.map (fun s => JVal.str s)).map jStr = xs := by
    rw [List.map_map, show jStr ∘ (fun s => JVal.str s) = id from rfl, List.map_id]
  have h3 : xs.filter (fun s => s ≠ "") = xs :=
    List.filter_eq_self.mpr (fun a ha => decide_eq_true (h a ha))
  rw [h1, h2, h3]

theorem spending_key_candidate_fallback (cbk : List (String × Candidate))
    (c : Candidate) (hkey : c.key ≠ "") (hlook : lookupCand cbk c.key = some c) :
    spending_key_candidate cbk (obj_fields (fallback_spending_item c))
      = some (c.key, c) := by
  unfold spending_key_candidate
  have h1 : jObjGet (obj_fields (fallback_spending_item c)) "source_candidate_key"
      = some (.str c.key) := rfl
  rw [h1]
  dsimp only
  rw [if_neg hkey, hlook]
  rfl

theorem spending_ids_fallback (c : Candidate)
    (hidne : ∀ i ∈ c.supporting_transaction_ids, i ≠ "") :
    spending_ids c (obj_fields (fallback_spending_item c))
      = c.supporting_transaction_ids.take 3 := by
  unfold spending_ids
  have h1 : jObjGet (obj_fields (fallback_spending_item c))
      "supporting_transaction_ids"
      = some (.arr ((c.supporting_transaction_ids.take 3).map
          (fun s => JVal.str s))) := rfl
  rw [h1]
  dsimp only
  by_cases hids : c.supporting_transaction_ids = []
  · rw [hids]
    rfl
  · obtain ⟨i, rest, hc⟩ := List.exists_cons_of_ne_nil hids
    have hcond : ((c.supporting_transaction_ids.take 3).map
        (fun s => JVal.str s)).isEmpty = false := by
      rw [hc]
      rfl
    rw [hcond]
    simp only [Bool.false_eq_true, if_false]
    rw [strlist_roundtrip (c.supporting_transaction_ids.take 3)
      (fun i hi => hidne i ((List.take_sublist _ _).mem hi))]
    rw [List.take_take]
    norm_num

theorem fallback_sev_ok (c : Candidate) : sev_field_ok (fallback_spending_item c) := by
  intro fields hf
  have h2 : fields = obj_fields (fallback_spending_item c) := by
    rw [hf]
    exact rfl
  subst h2
  exact Or.inr ⟨("warning"), rfl⟩

/-- On a fallback item built from a clean candidate, the validator's spending
loop keeps the item and reproduces the candidate's label, value, the fixed
`warning` severity and the candidate's key. -/
theorem fix_spending_item_fallback (cbk : List (String × Candidate)) (fc : String)
    (c : Candidate) (hkey : c.key ≠ "") (hlook : lookupCand cbk c.key = some c)
    (hids : c.supporting_transaction_ids ≠ [])
    (hidne : ∀ i ∈ c.supporting_transaction_ids, i ≠ "")
    (hlab : c.metric_label ≠ "") (hlabd : hasDollar c.metric_label = false)
    (hlabs : pyStrip c.metric_label = c.metric_label)
    (hlabl : pyLen c.metric_label ≤ 52)
    (hval : c.metric_value ≠ "") (hvald : hasDollar c.metric_value = false)
    (hvals : pyStrip c.metric_value = c.metric_value)
    (hvall : pyLen c.metric_value ≤ 140) :
    ∃ p, fix_spending_item cbk fc (fallback_spending_item c) = .ok (some p) ∧
      p.title = c.metric_label ∧ p.detail = c.metric_value ∧
      p.severity = ("warning") ∧ p.source_candidate_key = c.key := by
  have hskc : spending_key_candidate cbk (obj_fields (fallback_spending_item c))
      = some (c.key, c) := spending_key_candidate_fallback cbk c hkey hlook
  have hids3 : spending_ids c (obj_fields (fallback_spending_item c))
      = c.supporting_transaction_ids.take 3 := spending_ids_fallback c hidne
  have hsevf : normalize_severity
      (jObjGetD (obj_fields (fallback_spending_item c)) "severity" .null)
      = .ok (some ("warning")) := rfl
  have hne3 : (c.supporting_transaction_ids.take 3).isEmpty = false := by
    obtain ⟨i, rest, hc⟩ := List.exists_cons_of_ne_nil hids
    rw [hc]
    rfl
  refine ⟨mk_fixed_pattern fc (obj_fields (fallback_spending_item c)) c.key c
    (some ("warning")), ?_, ?_, ?_, ?_, ?_⟩
  · have h0 : fix_spending_item cbk fc (fallback_spending_item c)
        = fix_spending_item cbk fc (.obj (obj_fields (fallback_spending_item c))) := rfl
    rw [h0]
    unfold fix_spending_item
    dsimp only
    rw [hskc]
    dsimp only
    rw [hids3, hne3, hsevf]
    simp only [Bool.false_eq_true, if_false]
  · rw [mk_fixed_pattern_title]
    have ht1 : jObjGetD (obj_fields (fallback_spending_item c)) "title" (.str (""))
        = .str (strTake 52 (orEmpty c.metric_label ("Spending insight"))) := rfl
    have ht2 : orEmpty c.metric_label ("Spending insight") = c.metric_label := by
      unfold orEmpty
      rw [if_neg hlab]
    rw [ht1, ht2, strTake_eq_self 52 c.metric_label hlabl]
    have ht3 : clamp_any fc (.str c.metric_label) 52
        = clamp_str fc c.metric_label 52 := rfl
    rw [ht3, clamp_id fc c.metric_label 52 hlabd hlabs hlabl]
    unfold orEmpty
    rw [if_neg hlab]
  · rw [mk_fixed_pattern_detail]
    have hd1 : jObjGetD (obj_fields (fallback_spending_item c)) "detail" (.str (""))
        = .str (strTake 140 (orEmpty c.metric_value ("See statement details."))) := rfl
    have hd2 : orEmpty c.metric_value ("See statement details.") = c.metric_value := by
      unfold orEmpty
      rw [if_neg hval]
    rw [hd1, hd2, strTake_eq_self 140 c.metric_value hvall]
    have hd3 : clamp_any fc (.str c.metric_value) 140
        = clamp_str fc c.metric_value 140 := rfl
    rw [hd3, clamp_id fc c.metric_value 140 hvald hvals hvall]
    unfold orEmpty
    rw [if_neg hval]
  · rw [mk_fixed_pattern_severity]
    rfl
  · rw [mk_fixed_pattern_key]

/-- A candidate as actually produced by `_analyze_transactions`: non-empty
evidence ids, and metric strings that are non-empty, dollar-free, already
stripped and within the clamp limits. -/
def clean_candidate (c : Candidate) : Prop :=
  c.supporting_transaction_ids ≠ [] ∧
  (∀ i ∈ c.supporting_transaction_ids, i ≠ "") ∧
  c.metric_label ≠ "" ∧ hasDollar c.metric_label = false ∧
  pyStrip c.metric_label = c.metric_label ∧ pyLen c.metric_label ≤ 52 ∧
  c.metric_value ≠ "" ∧ hasDollar c.metric_value = false ∧
  pyStrip c.metric_value = c.metric_value ∧ pyLen c.metric_value ≤ 140

theorem fix_spending_list_fallback (cbk : List (String × Candidate)) (fc : String) :
    ∀ l : List Candidate,
    (∀ c ∈ l, c.key ≠ "" ∧ lookupCand cbk c.key = some c ∧ clean_candidate c) →
    ∃ ps, fix_spending_list cbk fc (l.map fallback_spending_item) = .ok ps ∧
      ps.map (fun p => (p.title, p.detail, p.severity, p.source_candidate_key))
        = l.map (fun c => (c.metric_label, c.metric_value, ("warning"), c.key)) ∧
      (l.Pairwise (fun cx ca => ca.severity_score ≤ cx.severity_score) →
        ps.Pairwise (fun x a => spend_le cbk x a = true)) := by
  intro l
  induction l with
  | nil => exact fun _ => ⟨[], rfl, rfl, fun _ => List.Pairwise.nil⟩
  | cons c t ih =>
      intro h
      obtain ⟨hkey, hlook, hids, hidne, hlab, hlabd, hlabs, hlabl,
        hval, hvald, hvals, hvall⟩ := h c (by simp)
      obtain ⟨p, hp, ht, hd, hsv, hk⟩ := fix_spending_item_fallback cbk fc c
        hkey hlook hids hidne hlab hlabd hlabs hlabl hval hvald hvals hvall
      obtain ⟨ps, hps, hmapr, hpwih⟩ := ih (fun x hx => h x (by simp [hx]))
      refine ⟨p :: ps, ?_, ?_, ?_⟩
      · rw [List.map_cons]
        simp [fix_spending_list, hp, hps]
      · rw [List.map_cons, List.map_cons, hmapr, ht, hd, hsv, hk]
      · intro hpw
        have hpwt := List.pairwise_cons.mp hpw
        refine List.pairwise_cons.mpr ⟨?_, hpwih hpwt.2⟩
        intro a ha
        have h1 : (a.title, a.detail, a.severity, a.source_candidate_key)
            ∈ t.map (fun c => (c.metric_label, c.metric_value, ("warning"), c.key)) := by
          rw [← hmapr]
          exact List.mem_map_of_mem _ ha
        obtain ⟨ca, hca, heq⟩ := List.mem_map.mp h1
        simp only [Prod.mk.injEq] at heq
        obtain ⟨hcak, hlookca, _⟩ := h ca (by simp [hca])
        apply decide_eq_true
        refine Or.inr ⟨?_, ?_⟩
        · rw [hsv, ← heq.2.2.1]
        · rw [hk, ← heq.2.2.2]
          unfold score_of
          rw [hlook, hlookca]
          exact hpwt.1 ca hca

theorem candidate_by_key_aux :
    ∀ (l : List Candidate) (acc : List (String × Candidate)),
    (∀ c ∈ l, c.key ≠ "") →
    (∀ c ∈ l, acc.find? (fun p => p.1 = c.key) = none) →
    (l.map (fun c => c.key)).Nodup →
    l.foldl (fun d c => if c.key = "" then d else dictInsertCand d c) acc
      = acc ++ l.map (fun c => (c.key, c)) := by
  intro l
  induction l with
  | nil => intro acc _ _ _; simp
  | cons c t ih =>
      intro acc hne hfind hnd
      have hnd2 : (∀ x ∈ t, ¬ x.key = c.key) ∧
          (t.map (fun c => c.key)).Nodup := by simpa using hnd
      rw [List.foldl_cons, if_neg (hne c (by simp))]
      rw [show dictInsertCand acc c = acc ++ [(c.key, c)] from by
        unfold dictInsertCand
        rw [hfind c (by simp)]
        rfl]
      rw [ih (acc ++ [(c.key, c)]) (fun x hx => hne x (by simp [hx])) ?hf2
        hnd2.2]
      · simp
      case hf2 =>
        intro x hx
        rw [List.find?_append, hfind x (by simp [hx])]
        have hxx : (decide ((c.key, c).1 = x.key)) = false := by
          apply decide_eq_false
          intro he
          exact hnd2.1 x hx he.symm
        rw [List.find?_cons_of_neg _ (by simpa using hxx)]
        rfl

theorem candidate_by_key_eq_map (l : List Candidate)
    (hne : ∀ c ∈ l, c.key ≠ "") (hnd : (l.map (fun c => c.key)).Nodup) :
    candidate_by_key l = l.map (fun c => (c.key, c)) := by
  unfold candidate_by_key
  rw [candidate_by_key_aux l [] hne (fun c _ => rfl) hnd]
  rfl

theorem lookupCand_map (l : List Candidate)
    (hnd : (l.map (fun c => c.key)).Nodup) (c : Candidate) (hc : c ∈ l) :
    lookupCand (l.map (fun x => (x.key, x))) c.key = some c := by
  induction l with
  | nil => cases hc
  | cons a t ih =>
      have hnd2 : (∀ x ∈ t, ¬ x.key = a.key) ∧
          (t.map (fun c => c.key)).Nodup := by simpa using hnd
      rcases List.mem_cons.mp hc with rfl | hct
      · show ((((c.key, c) :: t.map fun x => (x.key, x)).find?
          (fun p => p.1 = c.key)).map (fun p => p.2)) = some c
        rw [List.find?_cons_of_pos _ (by simp)]
        rfl
      · have hxx : (decide ((a.key, a).1 = c.key)) = false := by
          apply decide_eq_false
          intro he
          exact hnd2.1 c hct he.symm
        show ((((a.key, a) :: t.map fun x => (x.key, x)).find?
          (fun p => p.1 = c.key)).map (fun p => p.2)) = some c
        rw [List.find?_cons_of_neg _ (by simpa using hxx)]
        exact ih hnd2.2 hct

/-- C3: when the LLM call of `_finalize_insights` raises, the pipeline still
completes: the hard fallback output passes the validator without error and the
final recommendations list is always empty; and for clean candidates — keys
non-empty and distinct, evidence and metric strings as the deterministic
generator produces them, severity scores in descending order — the final
patterns are exactly the first 3 candidates rendered with the metric label as
title, the metric value as detail and severity fixed to `warning`. -/
theorem C3_llm_failure_fallback :
    (∀ (cs : List Candidate) (fc : String),
      ∃ out, finalize_on_llm_error cs fc = .ok out ∧ out.recommendations = []) ∧
    (∀ (cs : List Candidate) (fc : String),
      (∀ c ∈ cs.take 6, c.key ≠ "") →
      ((cs.take 6).map (fun c => c.key)).Nodup →
      (∀ c ∈ cs.take 3, clean_candidate c) →
      (cs.take 3).Pairwise (fun cx ca => ca.severity_score ≤ cx.severity_score) →
      ∃ out, finalize_on_llm_error cs fc = .ok out ∧
        out.spending_insights.map
          (fun p => (p.title, p.detail, p.severity, p.source_candidate_key))
          = (cs.take 3).map
            (fun c => (c.metric_label, c.metric_value, ("warning"), c.key)) ∧
        out.recommendations = []) := by
  constructor
  · intro cs fc
    have hsitems : ∀ item ∈ ((cs.take 6).take 3).map fallback_spending_item,
        sev_field_ok item := by
      intro item hitem
      obtain ⟨c, hc, rfl⟩ := List.mem_map.mp hitem
      exact fallback_sev_ok c
    obtain ⟨fixed0, hs0⟩ :=
      fix_spending_list_ok (candidate_by_key (cs.take 6)) fc _ hsitems
    have hs : fix_spending_list (candidate_by_key (cs.take 6)) fc
        (ensure_list (jObjGetD (obj_fields (llm_failure_result (cs.take 6)))
          "spending_insights" .null)) = .ok fixed0 := hs0
    have ha : fix_alert_list fc (ensure_list (jObjGetD (obj_fields
        (llm_failure_result (cs.take 6))) "alerts" .null)) = .ok [] := rfl
    have hr : fix_rec_list fc
        (((pySorted (spend_le (candidate_by_key (cs.take 6))) fixed0).take 3).map
          (fun p => p.title) ++
          (([] : List FixedAlert).take 2).map (fun a => a.title))
        (ensure_list (jObjGetD (obj_fields (llm_failure_result (cs.take 6)))
          "recommendations" .null)) = .ok [] := rfl
    obtain ⟨out, hok⟩ := validate_ok_of (llm_failure_result (cs.take 6))
      (candidate_by_key (cs.take 6)) fc fixed0 [] [] hs ha hr
    refine ⟨out, hok, ?_⟩
    obtain ⟨f0, a0, r0, hs2, ha2, hr2, hout, hout2, hout3⟩ :=
      validate_ok_parts _ _ _ out hok
    have hr0 : ([] : List FixedRec) = r0 := Except.ok.inj hr2
    rw [hout3, ← hr0]
    rfl
  · intro cs fc hkeys hnodup hclean hscores
    have htt : (cs.take 6).take 3 = cs.take 3 := by
      rw [List.take_take]
      norm_num
    have hmapk : candidate_by_key (cs.take 6)
        = (cs.take 6).map (fun c => (c.key, c)) :=
      candidate_by_key_eq_map _ hkeys hnodup
    have hsub : ∀ c ∈ cs.take 3, c ∈ cs.take 6 := by
      intro c hc
      rw [← htt] at hc
      exact (List.take_sublist _ _).mem hc
    have hlookAll : ∀ c ∈ cs.take 3,
        lookupCand (candidate_by_key (cs.take 6)) c.key = some c := by
      intro c hc
      rw [hmapk]
      exact lookupCand_map _ hnodup c (hsub c hc)
    obtain ⟨ps, hps, hproj, hpw⟩ := fix_spending_list_fallback
      (candidate_by_key (cs.take 6)) fc (cs.take 3)
      (fun c hc => ⟨hkeys c (hsub c hc), hlookAll c hc, hclean c hc⟩)
    have hsorted : pySorted (spend_le (candidate_by_key (cs.take 6))) ps = ps :=
      pySorted_of_pairwise _ _ (hpw hscores)
    have hlen3 : ps.length ≤ 3 := by
      have h2 := congrArg List.length hproj
      simp only [List.length_map] at h2
      rw [h2]
      exact List.length_take_le _ _
    have htake : ps.take 3 = ps := List.take_of_length_le hlen3
    have hs : fix_spending_list (candidate_by_key (cs.take 6)) fc
        (ensure_list (jObjGetD (obj_fields (llm_failure_result (cs.take 6)))
          "spending_insights" .null)) = .ok ps := by
      rw [show ensure_list (jObjGetD (obj_fields (llm_failure_result (cs.take 6)))
        "spending_insights" .null)
        = ((cs.take 6).take 3).map fallback_spending_item from rfl, htt]
      exact hps
    have ha : fix_alert_list fc (ensure_list (jObjGetD (obj_fields
        (llm_failure_result (cs.take 6))) "alerts" .null)) = .ok [] := rfl
    have hr : fix_rec_list fc
        (((pySorted (spend_le (candidate_by_key (cs.take 6))) ps).take 3).map
          (fun p => p.title) ++
          (([] : List FixedAlert).take 2).map (fun a => a.title))
        (ensure_list (jObjGetD (obj_fields (llm_failure_result (cs.take 6)))
          "recommendations" .null)) = .ok [] := rfl
    obtain ⟨out, hok⟩ := validate_ok_of (llm_failure_result (cs.take 6))
      (candidate_by_key (cs.take 6)) fc ps [] [] hs ha hr
    obtain ⟨f0, a0, r0, hs2, ha2, hr2, hout, hout2, hout3⟩ :=
      validate_ok_parts _ _ _ out hok
    have hf0 : f0 = ps := Except.ok.inj (hs2.symm.trans hs)
    refine ⟨out, hok, ?_, ?_⟩
    · rw [hout, hf0, hsorted, htake, hproj]
    · rw [hout3]
      have hr0 : ([] : List FixedRec) = r0 := Except.ok.inj hr2
      rw [← hr0]
      rfl

/-- C3 witness: on the single clean candidate `exVCand` the failure fallback
yields exactly its deterministic rendering and no recommendations. -/
theorem C3_llm_failure_fallback_witness :
    ∃ out, finalize_on_llm_error [exVCand] ("MYR") = .ok out ∧
      out.spending_insights.map
        (fun p => (p.title, p.detail, p.severity, p.source_candidate_key))
        = [(("L"), ("V"), ("warning"), ("k1"))] ∧
      out.recommendations = [] := by
  obtain ⟨out, h1, h2, h3⟩ := C3_llm_failure_fallback.2 [exVCand] ("MYR")
    (by decide) (by decide)
    (by
      intro c hc
      have hce : c = exVCand := List.mem_singleton.mp hc
      subst hce
      unfold clean_candidate
      refine ⟨by decide, by decide, by decide, by decide, by decide,
        by decide, by decide, by decide, by decide, by decide⟩)
    (by simp)
  exact ⟨out, h1, h2.trans (by decide), h3⟩

/-- C3 (counterexample): the fallback output still passes through the
validator, which drops a candidate whose evidence ids are all empty — so the
final patterns are not unconditionally the top-3 candidates: one candidate in,
zero patterns out. -/
theorem C3_counterexample :
    (finalize_on_llm_error [exVCand2] ("MYR")).toOption.map
      (fun o => o.spending_insights.length) = some 0 ∧
    ([exVCand2].take 3).length = 1 :=
  ⟨rfl, rfl⟩
